import Mathlib

/-!
Verification development for the fathom repository.

Shallow embedding of:
* the core NbE semantics in fathom/src/core/semantics.rs (namespace Fathom):
  values, spines, closures, telescopes, branches, evaluation, primitive
  reduction, forcing of metavariables, format_repr and conversion checking;
* the minimal experiment in experiments/rust-minimal/src/lib.rs
  (namespace Mini): terms, values, eval, fun_elim, is_equal and the
  bidirectional elaborator (check and synth).

Conventions:
* interned string ids are Nat; de Bruijn indices and levels are Nat;
* span annotations from the source are erased (they carry no semantic
  content and every comparison in the source goes through as_ref,
  ignoring spans);
* environments are lists with the oldest entry first, so push appends at
  the tail, matching the Vec and SharedEnv push of the source;
* the partial functions of the source take a fuel argument; running out
  of fuel yields the distinguished error RunErr.fuel, and the panics of
  the source (panic_any of a semantics Error) become RunErr.err;
* machine integers are Nat (unsigned) and Int (signed) with explicit
  bounds, mirroring the checked_* operations of Rust.
-/

set_option maxHeartbeats 1600000

namespace Fathom

/-- Numeric styles carried by unsigned integer constants
(fathom core, referenced from semantics.rs). -/
inductive UIntStyle where
  | decimal
  | hex
  | binary
  | ascii
deriving DecidableEq, Repr

/-- Modelled from the spec: unsigned-arithmetic primitives merge the styles
of their operands, a join keeping equal styles and otherwise Decimal
(spec section 3; UIntStyle::merge lives in core/mod.rs, not under src/). -/
def UIntStyle.merge (s0 s1 : UIntStyle) : UIntStyle :=
  if s0 = s1 then s0 else .decimal

/-- Constants of the core language (core/mod.rs, as used by semantics.rs):
booleans, unsigned and signed fixed-width integers, and byte positions.
Unsigned constants carry a numeric style. -/
inductive Const where
  | bool (b : Bool)
  | u8 (x : Nat) (s : UIntStyle)
  | u16 (x : Nat) (s : UIntStyle)
  | u32 (x : Nat) (s : UIntStyle)
  | u64 (x : Nat) (s : UIntStyle)
  | s8 (x : Int)
  | s16 (x : Int)
  | s32 (x : Int)
  | s64 (x : Int)
  | pos (x : Nat)
deriving DecidableEq, Repr

/-- Modelled from the spec: equality of constants is by value and numeric
style agnostic (spec section 4.F: "ConstLit: equal by value and numeric
style agnostic equality"; the PartialEq impl lives in core/mod.rs, which is
not under src/). -/
def Const.ceq : Const → Const → Bool
  | .bool a, .bool b => a == b
  | .u8 a _, .u8 b _ => a == b
  | .u16 a _, .u16 b _ => a == b
  | .u32 a _, .u32 b _ => a == b
  | .u64 a _, .u64 b _ => a == b
  | .s8 a, .s8 b => a == b
  | .s16 a, .s16 b => a == b
  | .s32 a, .s32 b => a == b
  | .s64 a, .s64 b => a == b
  | .pos a, .pos b => a == b
  | _, _ => false

/-- Primitives referenced by semantics.rs (the enum itself lives in
core/mod.rs; the variants below are exactly those matched on in
prim_step and format_repr, plus the primitives they produce). -/
inductive Prim where
  | FormatRepr
  | BoolEq | BoolNeq | BoolNot | BoolAnd | BoolOr | BoolXor
  | U8Eq | U8Neq | U8Gt | U8Lt | U8Gte | U8Lte
  | U8Add | U8Sub | U8Mul | U8Div | U8Not | U8Shl | U8Shr | U8And | U8Or | U8Xor
  | U16Eq | U16Neq | U16Gt | U16Lt | U16Gte | U16Lte
  | U16Add | U16Sub | U16Mul | U16Div | U16Not | U16Shl | U16Shr | U16And | U16Or | U16Xor
  | U32Eq | U32Neq | U32Gt | U32Lt | U32Gte | U32Lte
  | U32Add | U32Sub | U32Mul | U32Div | U32Not | U32Shl | U32Shr | U32And | U32Or | U32Xor
  | U64Eq | U64Neq | U64Gt | U64Lt | U64Gte | U64Lte
  | U64Add | U64Sub | U64Mul | U64Div | U64Not | U64Shl | U64Shr | U64And | U64Or | U64Xor
  | S8Eq | S8Neq | S8Gt | S8Lt | S8Gte | S8Lte
  | S8Neg | S8Add | S8Sub | S8Mul | S8Div | S8Abs | S8UAbs
  | S16Eq | S16Neq | S16Gt | S16Lt | S16Gte | S16Lte
  | S16Neg | S16Add | S16Sub | S16Mul | S16Div | S16Abs | S16UAbs
  | S32Eq | S32Neq | S32Gt | S32Lt | S32Gte | S32Lte
  | S32Neg | S32Add | S32Sub | S32Mul | S32Div | S32Abs | S32UAbs
  | S64Eq | S64Neq | S64Gt | S64Lt | S64Gte | S64Lte
  | S64Neg | S64Add | S64Sub | S64Mul | S64Div | S64Abs | S64UAbs
  | OptionSome | OptionNone | OptionFold
  | Array8Find | Array16Find | Array32Find | Array64Find
  | Array8Index | Array16Index | Array32Index | Array64Index
  | PosAddU8 | PosAddU16 | PosAddU32 | PosAddU64
  | FormatU8
  | FormatU16Be | FormatU16Le | FormatU32Be | FormatU32Le | FormatU64Be | FormatU64Le
  | FormatS8
  | FormatS16Be | FormatS16Le | FormatS32Be | FormatS32Le | FormatS64Be | FormatS64Le
  | FormatF32Be | FormatF32Le | FormatF64Be | FormatF64Le
  | FormatArray8 | FormatArray16 | FormatArray32 | FormatArray64
  | FormatLimit8 | FormatLimit16 | FormatLimit32 | FormatLimit64
  | FormatRepeatUntilEnd | FormatLink | FormatDeref | FormatStreamPos
  | FormatSucceed | FormatFail | FormatUnwrap
  | ReportedError
  | U8Type | U16Type | U32Type | U64Type
  | S8Type | S16Type | S32Type | S64Type
  | F32Type | F64Type
  | ArrayType | Array8Type | Array16Type | Array32Type | Array64Type
  | RefType | PosType | VoidType
deriving DecidableEq, Repr

/-- Information about local bindings in scope at a metavariable insertion
(core/mod.rs LocalInfo). -/
inductive LocalInfo where
  | isDef
  | isParam
deriving DecidableEq, Repr

/-- Core language terms (core/mod.rs Term, spans erased). The field order
of every constructor follows the source. -/
inductive Term where
  | itemVar (v : Nat)
  | localVar (i : Nat)
  | metaVar (v : Nat)
  | insertedMeta (v : Nat) (infos : List LocalInfo)
  | ann (expr ty : Term)
  | lett (name : Option Nat) (defType defExpr body : Term)
  | universe
  | funType (name : Option Nat) (paramType bodyType : Term)
  | funLit (name : Option Nat) (body : Term)
  | funApp (head arg : Term)
  | recordType (labels : List Nat) (types : List Term)
  | recordLit (labels : List Nat) (exprs : List Term)
  | recordProj (head : Term) (label : Nat)
  | arrayLit (exprs : List Term)
  | formatRecord (labels : List Nat) (formats : List Term)
  | formatCond (name : Nat) (format cond : Term)
  | formatOverlap (labels : List Nat) (formats : List Term)
  | prim (p : Prim)
  | constLit (c : Const)
  | constMatch (head : Term) (branches : List (Const × Term)) (dflt : Option Term)
deriving Repr

/-- The head of a stuck value (semantics.rs Head). -/
inductive Head where
  | prim (p : Prim)
  | localVar (lvl : Nat)
  | metaVar (lvl : Nat)
deriving DecidableEq, Repr

mutual

/-- Values in weak-head-normal form (semantics.rs Value, spans erased). -/
inductive Value where
  | Stuck (head : Head) (spine : List Elim)
  | Universe
  | FunType (name : Option Nat) (paramType : Value) (body : Closure)
  | FunLit (name : Option Nat) (body : Closure)
  | RecordType (labels : List Nat) (types : Telescope)
  | RecordLit (labels : List Nat) (exprs : List Value)
  | ArrayLit (exprs : List Value)
  | FormatRecord (labels : List Nat) (formats : Telescope)
  | FormatCond (name : Nat) (format : Value) (cond : Closure)
  | FormatOverlap (labels : List Nat) (formats : Telescope)
  | ConstLit (c : Const)

/-- A pending elimination in a spine (semantics.rs Elim). -/
inductive Elim where
  | funApp (arg : Value)
  | recordProj (label : Nat)
  | constMatch (branches : Branches)

/-- A closure: captured local environment plus an unevaluated term
(semantics.rs Closure). -/
inductive Closure where
  | mk (locals : List Value) (body : Term)

/-- A telescope of dependent terms with an apply_repr flag
(semantics.rs Telescope). -/
inductive Telescope where
  | mk (locals : List Value) (applyRepr : Bool) (terms : List Term)

/-- Branches of a constant match: captured environment, pattern branches
and optional default (semantics.rs Branches). -/
inductive Branches where
  | mk (locals : List Value) (pats : List (Const × Term)) (dflt : Option Term)

end

def Closure.locals : Closure → List Value
  | .mk l _ => l

def Closure.body : Closure → Term
  | .mk _ t => t

def Telescope.locals : Telescope → List Value
  | .mk l _ _ => l

def Telescope.reprFlag : Telescope → Bool
  | .mk _ b _ => b

def Telescope.terms : Telescope → List Term
  | .mk _ _ ts => ts

/-- Telescope::apply_repr: set the repr flag (semantics.rs line 155). -/
def Telescope.setRepr : Telescope → Telescope
  | .mk l _ ts => .mk l true ts

/-- The continuation returned by split_telescope pushes the previous
binding's value onto the captured environment. -/
def Telescope.push : Telescope → Value → Telescope
  | .mk l b ts, v => .mk (l ++ [v]) b ts

def Branches.locals : Branches → List Value
  | .mk l _ _ => l

def Branches.pats : Branches → List (Const × Term)
  | .mk _ p _ => p

def Branches.dflt : Branches → Option Term
  | .mk _ _ d => d

/-- Value::prim: a primitive applied to the given arguments
(semantics.rs line 56). -/
def Value.primApp (p : Prim) (params : List Value) : Value :=
  .Stuck (.prim p) (params.map .funApp)

/-- Value::local_var (semantics.rs line 61). -/
def Value.localVar (lvl : Nat) : Value :=
  .Stuck (.localVar lvl) []

/-- Value::meta_var (semantics.rs line 65). -/
def Value.metaVar (lvl : Nat) : Value :=
  .Stuck (.metaVar lvl) []

/-- Errors raised by the semantics via panic_any (semantics.rs Error). -/
inductive Error where
  | UnboundItemVar
  | UnboundLocalVar
  | UnboundMetaVar
  | InvalidFunctionApp
  | InvalidRecordProj
  | InvalidConstMatch
  | InvalidFormatRepr
  | MissingConstDefault
deriving DecidableEq, Repr

/-- Outcomes of running a fueled semantic computation: a semantics error
(a panic in the source) or fuel exhaustion (the source may diverge). -/
inductive RunErr where
  | err (e : Error)
  | fuel
deriving DecidableEq, Repr

/-- The global part of an elimination environment: the item table and the
metavariable solution table (semantics.rs ElimEnv). -/
structure GEnv where
  items : List Value
  metas : List (Option Value)

/-- Modelled from the spec: SliceEnv::get_level reads a levelled table at
the given level (spec section 4.B; env.rs is not under src/). -/
def sliceGet (l : List α) (lvl : Nat) : Option α :=
  l[lvl]?

/-- Modelled from the spec: SharedEnv::get_index converts a de Bruijn index
to a level via level_to_index(len, level) = len - level - 1 and reads the
environment (spec section 4.B; env.rs is not under src/). -/
def localGet (l : List α) (i : Nat) : Option α :=
  if i < l.length then l[l.length - 1 - i]? else none

mutual

/-- ElimEnv::format_repr: find the representation type of a format
description (semantics.rs lines 803-863). The Stuck-on-a-primitive
case is delegated to formatReprPrim, which mirrors the inner match on
(prim, spine). -/
def formatRepr : Value → Except RunErr Value
  | .FormatRecord labels formats => .ok (.RecordType labels formats.setRepr)
  | .FormatOverlap labels formats => .ok (.RecordType labels formats.setRepr)
  | .FormatCond _ format _ => formatRepr format
  | .Stuck (.prim p) spine => formatReprPrim (.Stuck (.prim p) spine) p spine
  | .Stuck (.localVar l) spine => .ok (.primApp .FormatRepr [.Stuck (.localVar l) spine])
  | .Stuck (.metaVar l) spine => .ok (.primApp .FormatRepr [.Stuck (.metaVar l) spine])
  | _ => .error (.err .InvalidFormatRepr)
termination_by v => sizeOf v
decreasing_by all_goals (simp_wf; try omega)

/-- The inner match of ElimEnv::format_repr on the head primitive and the
spine of a stuck format (semantics.rs lines 809-857); the first argument
is the whole format value, used by the final catch-all. -/
def formatReprPrim (whole : Value) (p : Prim) (spine : List Elim) :
    Except RunErr Value :=
  match p, spine with
  | .FormatU8, [] => .ok (.primApp .U8Type [])
  | .FormatU16Be, [] => .ok (.primApp .U16Type [])
  | .FormatU16Le, [] => .ok (.primApp .U16Type [])
  | .FormatU32Be, [] => .ok (.primApp .U32Type [])
  | .FormatU32Le, [] => .ok (.primApp .U32Type [])
  | .FormatU64Be, [] => .ok (.primApp .U64Type [])
  | .FormatU64Le, [] => .ok (.primApp .U64Type [])
  | .FormatS8, [] => .ok (.primApp .S8Type [])
  | .FormatS16Be, [] => .ok (.primApp .S16Type [])
  | .FormatS16Le, [] => .ok (.primApp .S16Type [])
  | .FormatS32Be, [] => .ok (.primApp .S32Type [])
  | .FormatS32Le, [] => .ok (.primApp .S32Type [])
  | .FormatS64Be, [] => .ok (.primApp .S64Type [])
  | .FormatS64Le, [] => .ok (.primApp .S64Type [])
  | .FormatF32Be, [] => .ok (.primApp .F32Type [])
  | .FormatF32Le, [] => .ok (.primApp .F32Type [])
  | .FormatF64Be, [] => .ok (.primApp .F64Type [])
  | .FormatF64Le, [] => .ok (.primApp .F64Type [])
  | .FormatArray8, [.funApp len, .funApp elem] => do
    let r ← formatRepr elem
    .ok (.primApp .Array8Type [len, r])
  | .FormatArray16, [.funApp len, .funApp elem] => do
    let r ← formatRepr elem
    .ok (.primApp .Array16Type [len, r])
  | .FormatArray32, [.funApp len, .funApp elem] => do
    let r ← formatRepr elem
    .ok (.primApp .Array32Type [len, r])
  | .FormatArray64, [.funApp len, .funApp elem] => do
    let r ← formatRepr elem
    .ok (.primApp .Array64Type [len, r])
  | .FormatLimit8, [_, .funApp elem] => formatRepr elem
  | .FormatLimit16, [_, .funApp elem] => formatRepr elem
  | .FormatLimit32, [_, .funApp elem] => formatRepr elem
  | .FormatLimit64, [_, .funApp elem] => formatRepr elem
  | .FormatRepeatUntilEnd, [.funApp elem] => do
    let r ← formatRepr elem
    .ok (.primApp .ArrayType [r])
  | .FormatLink, [_, .funApp elem] => .ok (.primApp .RefType [elem])
  | .FormatDeref, [.funApp elem, _] => formatRepr elem
  | .FormatStreamPos, [] => .ok (.primApp .PosType [])
  | .FormatSucceed, [.funApp elem, _] => .ok elem
  | .FormatFail, [] => .ok (.primApp .VoidType [])
  | .FormatUnwrap, [.funApp elem, _] => .ok elem
  | .ReportedError, [] => .ok (.primApp .ReportedError [])
  | _, _ => .ok (.primApp .FormatRepr [whole])
termination_by sizeOf spine
decreasing_by all_goals (simp_wf; try omega)

end

/-- Head test for error absorption: is this value stuck on the
ReportedError primitive (first match arm of ConversionEnv::is_equal,
semantics.rs lines 1323-1324)? -/
def Value.isReportedErr : Value → Bool
  | .Stuck (.prim .ReportedError) _ => true
  | _ => false

/-- Result of ElimEnv::split_branches (semantics.rs SplitBranches). -/
inductive SplitB where
  | branch (pat : Const × Value) (rest : Branches)
  | dflt (d : Closure)
  | nil

/-- ElimEnv::record_proj: project from a record literal by label equality,
extend the spine of a stuck value, and panic otherwise (semantics.rs
lines 739-757). This elimination performs no recursive evaluation, so it
needs no fuel. -/
def recordProj : Value → Nat → Except RunErr Value
  | .RecordLit labels exprs, label =>
    match labels.findIdx? (fun l => l == label) with
    | some i =>
      match exprs[i]? with
      | some v => .ok v
      | none => .error (.err .InvalidRecordProj)
    | none => .error (.err .InvalidRecordProj)
  | .Stuck hd sp, label => .ok (.Stuck hd (sp ++ [.recordProj label]))
  | _, _ => .error (.err .InvalidRecordProj)

/-! Checked machine arithmetic, mirroring the Rust u8/u16/u32/u64 and
i8/i16/i32/i64 checked operations used by prim_step. The width w is the
bit width; usize is 64 bits (the supported targets are 64-bit). -/

def uCheckedAdd (w x y : Nat) : Option Nat :=
  if x + y < 2 ^ w then some (x + y) else none

def uCheckedSub (x y : Nat) : Option Nat :=
  if y ≤ x then some (x - y) else none

def uCheckedMul (w x y : Nat) : Option Nat :=
  if x * y < 2 ^ w then some (x * y) else none

def uCheckedDiv (x y : Nat) : Option Nat :=
  if y = 0 then none else some (x / y)

def uCheckedShl (w x s : Nat) : Option Nat :=
  if s < w then some (x * 2 ^ s % 2 ^ w) else none

def uCheckedShr (w x s : Nat) : Option Nat :=
  if s < w then some (x / 2 ^ s) else none

def uNot (w x : Nat) : Nat := 2 ^ w - 1 - x

def sMinI (w : Nat) : Int := -(2 ^ (w - 1))

def sMaxI (w : Nat) : Int := 2 ^ (w - 1) - 1

def sChecked (w : Nat) (x : Int) : Option Int :=
  if sMinI w ≤ x ∧ x ≤ sMaxI w then some x else none

def sCheckedNeg (w : Nat) (x : Int) : Option Int := sChecked w (-x)

def sCheckedAdd (w : Nat) (x y : Int) : Option Int := sChecked w (x + y)

def sCheckedSub (w : Nat) (x y : Int) : Option Int := sChecked w (x - y)

def sCheckedMul (w : Nat) (x y : Int) : Option Int := sChecked w (x * y)

/-- Rust signed checked_div: none on division by zero and on the sole
overflowing case MIN / -1; otherwise division truncating toward zero. -/
def sCheckedDiv (w : Nat) (x y : Int) : Option Int :=
  if y = 0 then none
  else if x = sMinI w ∧ y = -1 then none
  else some (Int.tdiv x y)

/-- Rust iN::abs; on MIN the release build wraps to MIN. -/
def sAbs (w : Nat) (x : Int) : Int :=
  if x = sMinI w then sMinI w else |x|

def posCheckedAdd (x y : Nat) : Option Nat :=
  if x + y < 2 ^ 64 then some (x + y) else none

/-! Spine shapes of the const_step macro (semantics.rs lines 399-412):
a step applies only when the spine is exactly a list of FunApp
eliminations carrying constant literals of the right constructor;
otherwise the step yields no result. One helper per constant family. -/

def stepBool1 (f : Bool → Bool) : List Elim → Option Value
  | [.funApp (.ConstLit (.bool a))] => some (.ConstLit (.bool (f a)))
  | _ => none

def stepBool2 (f : Bool → Bool → Bool) : List Elim → Option Value
  | [.funApp (.ConstLit (.bool a)), .funApp (.ConstLit (.bool b))] =>
    some (.ConstLit (.bool (f a b)))
  | _ => none

def cmpU8 (f : Nat → Nat → Bool) : List Elim → Option Value
  | [.funApp (.ConstLit (.u8 x _)), .funApp (.ConstLit (.u8 y _))] =>
    some (.ConstLit (.bool (f x y)))
  | _ => none

def cmpU16 (f : Nat → Nat → Bool) : List Elim → Option Value
  | [.funApp (.ConstLit (.u16 x _)), .funApp (.ConstLit (.u16 y _))] =>
    some (.ConstLit (.bool (f x y)))
  | _ => none

def cmpU32 (f : Nat → Nat → Bool) : List Elim → Option Value
  | [.funApp (.ConstLit (.u32 x _)), .funApp (.ConstLit (.u32 y _))] =>
    some (.ConstLit (.bool (f x y)))
  | _ => none

def cmpU64 (f : Nat → Nat → Bool) : List Elim → Option Value
  | [.funApp (.ConstLit (.u64 x _)), .funApp (.ConstLit (.u64 y _))] =>
    some (.ConstLit (.bool (f x y)))
  | _ => none

/-- Binary unsigned arithmetic: both operands and the result share a
width; the result style is the merge of the operand styles. -/
def arithU8 (f : Nat → Nat → Option Nat) : List Elim → Option Value
  | [.funApp (.ConstLit (.u8 x sx)), .funApp (.ConstLit (.u8 y sy))] =>
    (f x y).map (fun z => .ConstLit (.u8 z (sx.merge sy)))
  | _ => none

def arithU16 (f : Nat → Nat → Option Nat) : List Elim → Option Value
  | [.funApp (.ConstLit (.u16 x sx)), .funApp (.ConstLit (.u16 y sy))] =>
    (f x y).map (fun z => .ConstLit (.u16 z (sx.merge sy)))
  | _ => none

def arithU32 (f : Nat → Nat → Option Nat) : List Elim → Option Value
  | [.funApp (.ConstLit (.u32 x sx)), .funApp (.ConstLit (.u32 y sy))] =>
    (f x y).map (fun z => .ConstLit (.u32 z (sx.merge sy)))
  | _ => none

def arithU64 (f : Nat → Nat → Option Nat) : List Elim → Option Value
  | [.funApp (.ConstLit (.u64 x sx)), .funApp (.ConstLit (.u64 y sy))] =>
    (f x y).map (fun z => .ConstLit (.u64 z (sx.merge sy)))
  | _ => none

/-- Shifts: the shift amount of U8Shl and U8Shr is a u8, and the result
keeps the style of the shifted operand. -/
def shiftU8 (f : Nat → Nat → Option Nat) : List Elim → Option Value
  | [.funApp (.ConstLit (.u8 x sx)), .funApp (.ConstLit (.u8 y _))] =>
    (f x y).map (fun z => .ConstLit (.u8 z sx))
  | _ => none

/-- Shifts at width 16: the shift amount is a u8 (semantics.rs line 458). -/
def shiftU16 (f : Nat → Nat → Option Nat) : List Elim → Option Value
  | [.funApp (.ConstLit (.u16 x sx)), .funApp (.ConstLit (.u8 y _))] =>
    (f x y).map (fun z => .ConstLit (.u16 z sx))
  | _ => none

def shiftU32 (f : Nat → Nat → Option Nat) : List Elim → Option Value
  | [.funApp (.ConstLit (.u32 x sx)), .funApp (.ConstLit (.u8 y _))] =>
    (f x y).map (fun z => .ConstLit (.u32 z sx))
  | _ => none

def shiftU64 (f : Nat → Nat → Option Nat) : List Elim → Option Value
  | [.funApp (.ConstLit (.u64 x sx)), .funApp (.ConstLit (.u8 y _))] =>
    (f x y).map (fun z => .ConstLit (.u64 z sx))
  | _ => none

def cmpS8 (f : Int → Int → Bool) : List Elim → Option Value
  | [.funApp (.ConstLit (.s8 x)), .funApp (.ConstLit (.s8 y))] =>
    some (.ConstLit (.bool (f x y)))
  | _ => none

def cmpS16 (f : Int → Int → Bool) : List Elim → Option Value
  | [.funApp (.ConstLit (.s16 x)), .funApp (.ConstLit (.s16 y))] =>
    some (.ConstLit (.bool (f x y)))
  | _ => none

def cmpS32 (f : Int → Int → Bool) : List Elim → Option Value
  | [.funApp (.ConstLit (.s32 x)), .funApp (.ConstLit (.s32 y))] =>
    some (.ConstLit (.bool (f x y)))
  | _ => none

def cmpS64 (f : Int → Int → Bool) : List Elim → Option Value
  | [.funApp (.ConstLit (.s64 x)), .funApp (.ConstLit (.s64 y))] =>
    some (.ConstLit (.bool (f x y)))
  | _ => none

def arithS8 (f : Int → Int → Option Int) : List Elim → Option Value
  | [.funApp (.ConstLit (.s8 x)), .funApp (.ConstLit (.s8 y))] =>
    (f x y).map (fun z => .ConstLit (.s8 z))
  | _ => none

def arithS16 (f : Int → Int → Option Int) : List Elim → Option Value
  | [.funApp (.ConstLit (.s16 x)), .funApp (.ConstLit (.s16 y))] =>
    (f x y).map (fun z => .ConstLit (.s16 z))
  | _ => none

def arithS32 (f : Int → Int → Option Int) : List Elim → Option Value
  | [.funApp (.ConstLit (.s32 x)), .funApp (.ConstLit (.s32 y))] =>
    (f x y).map (fun z => .ConstLit (.s32 z))
  | _ => none

def arithS64 (f : Int → Int → Option Int) : List Elim → Option Value
  | [.funApp (.ConstLit (.s64 x)), .funApp (.ConstLit (.s64 y))] =>
    (f x y).map (fun z => .ConstLit (.s64 z))
  | _ => none

def unaryS8 (f : Int → Option Int) : List Elim → Option Value
  | [.funApp (.ConstLit (.s8 x))] => (f x).map (fun z => .ConstLit (.s8 z))
  | _ => none

def unaryS16 (f : Int → Option Int) : List Elim → Option Value
  | [.funApp (.ConstLit (.s16 x))] => (f x).map (fun z => .ConstLit (.s16 z))
  | _ => none

def unaryS32 (f : Int → Option Int) : List Elim → Option Value
  | [.funApp (.ConstLit (.s32 x))] => (f x).map (fun z => .ConstLit (.s32 z))
  | _ => none

def unaryS64 (f : Int → Option Int) : List Elim → Option Value
  | [.funApp (.ConstLit (.s64 x))] => (f x).map (fun z => .ConstLit (.s64 z))
  | _ => none

/-- The branch scan of ElimEnv::const_match (semantics.rs lines 771-775):
the first branch whose pattern constant equals the scrutinee, by the
style-agnostic constant equality. The loop only compares constants, so it
is a pure list function. -/
def findBranch (c : Const) : List (Const × Term) → Option Term
  | [] => none
  | (bc, body) :: rest => if Const.ceq c bc then some body else findBranch c rest

/-- The non-recursive arms of prim_step (semantics.rs lines 423-552 and
581-600): boolean, comparison, checked arithmetic, bitwise, array index
and position primitives. Primitives that are handled in primStep
(FormatRepr, OptionFold, ArrayNFind) never reach this function, and
primitives without a step fall to the final catch-all, yielding none. -/
def primStepPure (p : Prim) (spine : List Elim) : Option Value :=
  match p with
  | .BoolEq => stepBool2 (fun a b => a == b) spine
  | .BoolNeq => stepBool2 (fun a b => a != b) spine
  | .BoolNot => stepBool1 (fun a => !a) spine
  | .BoolAnd => stepBool2 (fun a b => a && b) spine
  | .BoolOr => stepBool2 (fun a b => a || b) spine
  | .BoolXor => stepBool2 (fun a b => a ^^ b) spine
  | .U8Eq => cmpU8 (fun x y => x == y) spine
  | .U8Neq => cmpU8 (fun x y => x != y) spine
  | .U8Gt => cmpU8 (fun x y => decide (x > y)) spine
  | .U8Lt => cmpU8 (fun x y => decide (x < y)) spine
  | .U8Gte => cmpU8 (fun x y => decide (x ≥ y)) spine
  | .U8Lte => cmpU8 (fun x y => decide (x ≤ y)) spine
  | .U8Add => arithU8 (uCheckedAdd 8) spine
  | .U8Sub => arithU8 uCheckedSub spine
  | .U8Mul => arithU8 (uCheckedMul 8) spine
  | .U8Div => arithU8 uCheckedDiv spine
  | .U8Not =>
    (match spine with
      | [.funApp (.ConstLit (.u8 x s))] => some (.ConstLit (.u8 (uNot 8 x) s))
      | _ => none)
  | .U8Shl => shiftU8 (uCheckedShl 8) spine
  | .U8Shr => shiftU8 (uCheckedShr 8) spine
  | .U8And => arithU8 (fun a b => some (a.land b)) spine
  | .U8Or => arithU8 (fun a b => some (a.lor b)) spine
  | .U8Xor => arithU8 (fun a b => some (a.xor b)) spine
  | .U16Eq => cmpU16 (fun x y => x == y) spine
  | .U16Neq => cmpU16 (fun x y => x != y) spine
  | .U16Gt => cmpU16 (fun x y => decide (x > y)) spine
  | .U16Lt => cmpU16 (fun x y => decide (x < y)) spine
  | .U16Gte => cmpU16 (fun x y => decide (x ≥ y)) spine
  | .U16Lte => cmpU16 (fun x y => decide (x ≤ y)) spine
  | .U16Add => arithU16 (uCheckedAdd 16) spine
  | .U16Sub => arithU16 uCheckedSub spine
  | .U16Mul => arithU16 (uCheckedMul 16) spine
  | .U16Div => arithU16 uCheckedDiv spine
  | .U16Not =>
    (match spine with
      | [.funApp (.ConstLit (.u16 x _))] => some (.ConstLit (.u16 (uNot 16 x) .decimal))
      | _ => none)
  | .U16Shl => shiftU16 (uCheckedShl 16) spine
  | .U16Shr => shiftU16 (uCheckedShr 16) spine
  | .U16And => arithU16 (fun a b => some (a.land b)) spine
  | .U16Or => arithU16 (fun a b => some (a.lor b)) spine
  | .U16Xor => arithU16 (fun a b => some (a.xor b)) spine
  | .U32Eq => cmpU32 (fun x y => x == y) spine
  | .U32Neq => cmpU32 (fun x y => x != y) spine
  | .U32Gt => cmpU32 (fun x y => decide (x > y)) spine
  | .U32Lt => cmpU32 (fun x y => decide (x < y)) spine
  | .U32Gte => cmpU32 (fun x y => decide (x ≥ y)) spine
  | .U32Lte => cmpU32 (fun x y => decide (x ≤ y)) spine
  | .U32Add => arithU32 (uCheckedAdd 32) spine
  | .U32Sub => arithU32 uCheckedSub spine
  | .U32Mul => arithU32 (uCheckedMul 32) spine
  | .U32Div => arithU32 uCheckedDiv spine
  | .U32Not =>
    (match spine with
      | [.funApp (.ConstLit (.u32 x _))] => some (.ConstLit (.u32 (uNot 32 x) .decimal))
      | _ => none)
  | .U32Shl => shiftU32 (uCheckedShl 32) spine
  | .U32Shr => shiftU32 (uCheckedShr 32) spine
  | .U32And => arithU32 (fun a b => some (a.land b)) spine
  | .U32Or => arithU32 (fun a b => some (a.lor b)) spine
  | .U32Xor => arithU32 (fun a b => some (a.xor b)) spine
  | .U64Eq => cmpU64 (fun x y => x == y) spine
  | .U64Neq => cmpU64 (fun x y => x != y) spine
  | .U64Gt => cmpU64 (fun x y => decide (x > y)) spine
  | .U64Lt => cmpU64 (fun x y => decide (x < y)) spine
  | .U64Gte => cmpU64 (fun x y => decide (x ≥ y)) spine
  | .U64Lte => cmpU64 (fun x y => decide (x ≤ y)) spine
  | .U64Add => arithU64 (uCheckedAdd 64) spine
  | .U64Sub => arithU64 uCheckedSub spine
  | .U64Mul => arithU64 (uCheckedMul 64) spine
  | .U64Div => arithU64 uCheckedDiv spine
  | .U64Not =>
    (match spine with
      | [.funApp (.ConstLit (.u64 x _))] => some (.ConstLit (.u64 (uNot 64 x) .decimal))
      | _ => none)
  | .U64Shl => shiftU64 (uCheckedShl 64) spine
  | .U64Shr => shiftU64 (uCheckedShr 64) spine
  | .U64And => arithU64 (fun a b => some (a.land b)) spine
  | .U64Or => arithU64 (fun a b => some (a.lor b)) spine
  | .U64Xor => arithU64 (fun a b => some (a.xor b)) spine
  | .S8Eq => cmpS8 (fun x y => x == y) spine
  | .S8Neq => cmpS8 (fun x y => x != y) spine
  | .S8Gt => cmpS8 (fun x y => decide (x > y)) spine
  | .S8Lt => cmpS8 (fun x y => decide (x < y)) spine
  | .S8Gte => cmpS8 (fun x y => decide (x ≥ y)) spine
  | .S8Lte => cmpS8 (fun x y => decide (x ≤ y)) spine
  | .S8Neg => unaryS8 (sCheckedNeg 8) spine
  | .S8Add => arithS8 (sCheckedAdd 8) spine
  | .S8Sub => arithS8 (sCheckedSub 8) spine
  | .S8Mul => arithS8 (sCheckedMul 8) spine
  | .S8Div => arithS8 (sCheckedDiv 8) spine
  | .S8Abs => unaryS8 (fun x => some (sAbs 8 x)) spine
  | .S8UAbs =>
    (match spine with
      | [.funApp (.ConstLit (.s8 x))] => some (.ConstLit (.u8 x.natAbs .decimal))
      | _ => none)
  | .S16Eq => cmpS16 (fun x y => x == y) spine
  | .S16Neq => cmpS16 (fun x y => x != y) spine
  | .S16Gt => cmpS16 (fun x y => decide (x > y)) spine
  | .S16Lt => cmpS16 (fun x y => decide (x < y)) spine
  | .S16Gte => cmpS16 (fun x y => decide (x ≥ y)) spine
  | .S16Lte => cmpS16 (fun x y => decide (x ≤ y)) spine
  | .S16Neg => unaryS16 (sCheckedNeg 16) spine
  | .S16Add => arithS16 (sCheckedAdd 16) spine
  | .S16Sub => arithS16 (sCheckedSub 16) spine
  | .S16Mul => arithS16 (sCheckedMul 16) spine
  | .S16Div => arithS16 (sCheckedDiv 16) spine
  | .S16Abs => unaryS16 (fun x => some (sAbs 16 x)) spine
  | .S16UAbs =>
    (match spine with
      | [.funApp (.ConstLit (.s16 x))] => some (.ConstLit (.u16 x.natAbs .decimal))
      | _ => none)
  | .S32Eq => cmpS32 (fun x y => x == y) spine
  | .S32Neq => cmpS32 (fun x y => x != y) spine
  | .S32Gt => cmpS32 (fun x y => decide (x > y)) spine
  | .S32Lt => cmpS32 (fun x y => decide (x < y)) spine
  | .S32Gte => cmpS32 (fun x y => decide (x ≥ y)) spine
  | .S32Lte => cmpS32 (fun x y => decide (x ≤ y)) spine
  | .S32Neg => unaryS32 (sCheckedNeg 32) spine
  | .S32Add => arithS32 (sCheckedAdd 32) spine
  | .S32Sub => arithS32 (sCheckedSub 32) spine
  | .S32Mul => arithS32 (sCheckedMul 32) spine
  | .S32Div => arithS32 (sCheckedDiv 32) spine
  | .S32Abs => unaryS32 (fun x => some (sAbs 32 x)) spine
  | .S32UAbs =>
    (match spine with
      | [.funApp (.ConstLit (.s32 x))] => some (.ConstLit (.u32 x.natAbs .decimal))
      | _ => none)
  | .S64Eq => cmpS64 (fun x y => x == y) spine
  | .S64Neq => cmpS64 (fun x y => x != y) spine
  | .S64Gt => cmpS64 (fun x y => decide (x > y)) spine
  | .S64Lt => cmpS64 (fun x y => decide (x < y)) spine
  | .S64Gte => cmpS64 (fun x y => decide (x ≥ y)) spine
  | .S64Lte => cmpS64 (fun x y => decide (x ≤ y)) spine
  | .S64Neg => unaryS64 (sCheckedNeg 64) spine
  | .S64Add => arithS64 (sCheckedAdd 64) spine
  | .S64Sub => arithS64 (sCheckedSub 64) spine
  | .S64Mul => arithS64 (sCheckedMul 64) spine
  | .S64Div => arithS64 (sCheckedDiv 64) spine
  | .S64Abs => unaryS64 (fun x => some (sAbs 64 x)) spine
  | .S64UAbs =>
    (match spine with
      | [.funApp (.ConstLit (.s64 x))] => some (.ConstLit (.u64 x.natAbs .decimal))
      | _ => none)
  | .Array8Index | .Array16Index | .Array32Index | .Array64Index =>
    (match spine with
      | [.funApp _, .funApp _, .funApp index, .funApp arr] =>
        match arr with
        | .ArrayLit elems =>
          match index with
          | .ConstLit (.u8 i _) | .ConstLit (.u16 i _)
          | .ConstLit (.u32 i _) | .ConstLit (.u64 i _) => elems[i]?
          | _ => none
        | _ => none
      | _ => none)
  | .PosAddU8 =>
    (match spine with
      | [.funApp (.ConstLit (.pos x)), .funApp (.ConstLit (.u8 y _))] =>
        (posCheckedAdd x y).map (fun z => .ConstLit (.pos z))
      | _ => none)
  | .PosAddU16 =>
    (match spine with
      | [.funApp (.ConstLit (.pos x)), .funApp (.ConstLit (.u16 y _))] =>
        (posCheckedAdd x y).map (fun z => .ConstLit (.pos z))
      | _ => none)
  | .PosAddU32 =>
    (match spine with
      | [.funApp (.ConstLit (.pos x)), .funApp (.ConstLit (.u32 y _))] =>
        (posCheckedAdd x y).map (fun z => .ConstLit (.pos z))
      | _ => none)
  | .PosAddU64 =>
    (match spine with
      | [.funApp (.ConstLit (.pos x)), .funApp (.ConstLit (.u64 y _))] =>
        (posCheckedAdd x y).map (fun z => .ConstLit (.pos z))
      | _ => none)
  | _ => none

mutual

/-- EvalEnv::eval: evaluate a term into a weak-head-normal value
(semantics.rs lines 275-369). The fuel argument makes the partial
recursion of the source total; RunErr.fuel stands for a computation the
source would keep running. -/
def eval : Nat → GEnv → List Value → Term → Except RunErr Value
  | 0, _, _, _ => .error .fuel
  | n + 1, E, locals, t =>
    match t with
    | .itemVar v =>
      match sliceGet E.items v with
      | some val => .ok val
      | none => .error (.err .UnboundItemVar)
    | .localVar i =>
      match localGet locals i with
      | some val => .ok val
      | none => .error (.err .UnboundLocalVar)
    | .metaVar v =>
      match sliceGet E.metas v with
      | some (some val) => .ok val
      | some none => .ok (Value.metaVar v)
      | none => .error (.err .UnboundMetaVar)
    | .insertedMeta v infos => do
      let head ← eval n E locals (.metaVar v)
      applyLocalInfos n E (infos.zip locals) head
    | .ann e _ => eval n E locals e
    | .lett _ _ defExpr body => do
      let d ← eval n E locals defExpr
      eval n E (locals ++ [d]) body
    | .universe => .ok .Universe
    | .funType name pt bt => do
      let ptv ← eval n E locals pt
      .ok (.FunType name ptv (.mk locals bt))
    | .funLit name b => .ok (.FunLit name (.mk locals b))
    | .funApp h a => do
      let hv ← eval n E locals h
      let av ← eval n E locals a
      funApp n E hv av
    | .recordType labels types => .ok (.RecordType labels (.mk locals false types))
    | .recordLit labels exprs => do
      let vs ← exprs.mapM (fun e => eval n E locals e)
      .ok (.RecordLit labels vs)
    | .recordProj h l => do
      let hv ← eval n E locals h
      recordProj hv l
    | .arrayLit exprs => do
      let vs ← exprs.mapM (fun e => eval n E locals e)
      .ok (.ArrayLit vs)
    | .formatRecord labels formats => .ok (.FormatRecord labels (.mk locals false formats))
    | .formatCond name f c => do
      let fv ← eval n E locals f
      .ok (.FormatCond name fv (.mk locals c))
    | .formatOverlap labels formats => .ok (.FormatOverlap labels (.mk locals false formats))
    | .prim p => .ok (.primApp p [])
    | .constLit c => .ok (.ConstLit c)
    | .constMatch h branches dflt => do
      let hv ← eval n E locals h
      constMatch n E hv (.mk locals branches dflt)
termination_by structural n => n

/-- EvalEnv::apply_local_infos: apply a metavariable head to every Param
binding in scope, skipping Def bindings (semantics.rs lines 371-383).
The list argument is the zip of the local infos with the local values,
oldest binding first. -/
def applyLocalInfos : Nat → GEnv → List (LocalInfo × Value) → Value → Except RunErr Value
  | 0, _, _, _ => .error .fuel
  | _ + 1, _, [], head => .ok head
  | n + 1, E, (info, expr) :: rest, head =>
    match info with
    | .isDef => applyLocalInfos n E rest head
    | .isParam => do
      let h2 ← funApp n E head expr
      applyLocalInfos n E rest h2
termination_by structural n => n

/-- ElimEnv::fun_app: beta-reduce a function literal, extend the spine of
a stuck value (running prim_step on primitive heads), and panic otherwise
(semantics.rs lines 714-733). -/
def funApp : Nat → GEnv → Value → Value → Except RunErr Value
  | 0, _, _, _ => .error .fuel
  | n + 1, E, head, arg =>
    match head with
    | .FunLit _ body => applyClosure n E body arg
    | .Stuck hd sp =>
      match hd with
      | .prim p => do
        let r ← primStep n E p (sp ++ [.funApp arg])
        .ok (r.getD (.Stuck hd (sp ++ [.funApp arg])))
      | _ => .ok (.Stuck hd (sp ++ [.funApp arg]))
    | _ => .error (.err .InvalidFunctionApp)
termination_by structural n => n

/-- ElimEnv::const_match: match a constant literal against the branches
(the first branch whose pattern equals the scrutinee, else the default
with the scrutinee pushed, else the MissingConstDefault panic), extend
the spine of a stuck value, and panic otherwise (semantics.rs
lines 763-791). -/
def constMatch : Nat → GEnv → Value → Branches → Except RunErr Value
  | 0, _, _, _ => .error .fuel
  | n + 1, E, head, br =>
    match head with
    | .ConstLit c =>
      match findBranch c br.pats with
      | some body => eval n E br.locals body
      | none =>
        match br.dflt with
        | some d => eval n E (br.locals ++ [.ConstLit c]) d
        | none => .error (.err .MissingConstDefault)
    | .Stuck hd sp => .ok (.Stuck hd (sp ++ [.constMatch br]))
    | _ => .error (.err .InvalidConstMatch)
termination_by structural n => n

/-- ElimEnv::apply_spine: fold the eliminations of a spine over a head
value (semantics.rs lines 794-800). -/
def applySpine : Nat → GEnv → Value → List Elim → Except RunErr Value
  | 0, _, _, _ => .error .fuel
  | _ + 1, _, head, [] => .ok head
  | n + 1, E, head, elim :: rest => do
    let h2 ←
      match elim with
      | .funApp arg => funApp n E head arg
      | .recordProj label => recordProj head label
      | .constMatch br => constMatch n E head br
    applySpine n E h2 rest
termination_by structural n => n

/-- ElimEnv::apply_closure: push the argument onto the captured
environment and evaluate the body (semantics.rs lines 658-666). -/
def applyClosure : Nat → GEnv → Closure → Value → Except RunErr Value
  | 0, _, _, _ => .error .fuel
  | n + 1, E, clo, v => eval n E (clo.locals ++ [v]) clo.body
termination_by structural n => n

/-- ElimEnv::force: while the value is stuck on a solved metavariable,
apply the spine to the solution; stop at a non-meta head or an unsolved
metavariable; panic on an unbound metavariable (semantics.rs
lines 640-655). -/
def force : Nat → GEnv → Value → Except RunErr Value
  | 0, _, _ => .error .fuel
  | n + 1, E, v =>
    match v with
    | .Stuck (.metaVar m) sp =>
      match sliceGet E.metas m with
      | some (some sol) => do
        let v2 ← applySpine n E sol sp
        force n E v2
      | some none => .ok (.Stuck (.metaVar m) sp)
      | none => .error (.err .UnboundMetaVar)
    | _ => .ok v
termination_by structural n => n

/-- The element scan of the ArrayNFind primitives: apply the predicate to
each element; a true constant yields OptionSome, a false constant moves
on, anything else leaves the primitive stuck (semantics.rs
lines 562-579). -/
def arrayFindGo : Nat → GEnv → Value → List Value → Except RunErr (Option Value)
  | 0, _, _, _ => .error .fuel
  | _ + 1, _, _, [] => .ok (some (.primApp .OptionNone []))
  | n + 1, E, pred, elem :: rest => do
    let r ← funApp n E pred elem
    match r with
    | .ConstLit (.bool true) => .ok (some (.primApp .OptionSome [elem]))
    | .ConstLit (.bool false) => arrayFindGo n E pred rest
    | _ => .ok none
termination_by structural n => n

/-- prim_step: the evaluation step of a primitive applied to a spine;
none means the primitive stays stuck (semantics.rs lines 416-604). The
arms needing the elimination environment (FormatRepr, OptionFold and the
ArrayNFind scans) are dispatched here; every other primitive goes through
primStepPure. -/
def primStep : Nat → GEnv → Prim → List Elim → Except RunErr (Option Value)
  | 0, _, _, _ => .error .fuel
  | n + 1, E, p, spine =>
    match p with
    | .FormatRepr =>
      match spine with
      | [.funApp format] => do
        let r ← formatRepr format
        .ok (some r)
      | _ => .ok none
    | .OptionFold =>
      match spine with
      | [.funApp _, .funApp _, .funApp onNone, .funApp onSome, .funApp opt] =>
        match opt with
        | .Stuck (.prim .OptionSome) [.funApp value] => do
          let r ← funApp n E onSome value
          .ok (some r)
        | .Stuck (.prim .OptionNone) [] => .ok (some onNone)
        | _ => .ok none
      | _ => .ok none
    | .Array8Find | .Array16Find | .Array32Find | .Array64Find =>
      match spine with
      | [.funApp _, .funApp _, .funApp pred, .funApp arr] =>
        match arr with
        | .ArrayLit elems => arrayFindGo n E pred elems
        | _ => .ok none
      | _ => .ok none
    | _ => .ok (primStepPure p spine)
termination_by structural n => n

/-- ConversionEnv::is_equal: conversion checking of two values at a local
environment length, with ReportedError absorption as the first match arm
and eta-conversion for function and record literals (semantics.rs
lines 1316-1395). -/
def isEqual : Nat → GEnv → Nat → Value → Value → Except RunErr Bool
  | 0, _, _, _, _ => .error .fuel
  | n + 1, E, len, v0, v1 => do
    let f0 ← force n E v0
    let f1 ← force n E v1
    if f0.isReportedErr || f1.isReportedErr then .ok true
    else
      match f0, f1 with
      | .Stuck h0 sp0, .Stuck h1 sp1 =>
        if h0 = h1 ∧ sp0.length = sp1.length then isEqualSpine n E len (sp0.zip sp1)
        else .ok false
      | .Universe, .Universe => .ok true
      | .FunType _ pt0 bt0, .FunType _ pt1 bt1 => do
        let b ← isEqual n E len pt0 pt1
        if b then isEqualClosures n E len bt0 bt1 else .ok false
      | .FunLit _ b0, .FunLit _ b1 => isEqualClosures n E len b0 b1
      | .FunLit _ b0, w1 => isEqualFunLit n E len b0 w1
      | w0, .FunLit _ b1 => isEqualFunLit n E len b1 w0
      | .RecordType l0 t0, .RecordType l1 t1 =>
        if l0 = l1 then isEqualTelescopes n E len t0 t1 else .ok false
      | .RecordLit l0 e0, .RecordLit l1 e1 =>
        if l0 = l1 then (e0.zip e1).allM (fun pr => isEqual n E len pr.1 pr.2)
        else .ok false
      | .RecordLit l0 e0, w1 => isEqualRecordLit n E len (l0.zip e0) w1
      | w0, .RecordLit l1 e1 => isEqualRecordLit n E len (l1.zip e1) w0
      | .ArrayLit e0, .ArrayLit e1 => (e0.zip e1).allM (fun pr => isEqual n E len pr.1 pr.2)
      | .FormatRecord l0 t0, .FormatRecord l1 t1 =>
        if l0 = l1 then isEqualTelescopes n E len t0 t1 else .ok false
      | .FormatOverlap l0 t0, .FormatOverlap l1 t1 =>
        if l0 = l1 then isEqualTelescopes n E len t0 t1 else .ok false
      | .FormatCond nm0 fc0 c0, .FormatCond nm1 fc1 c1 =>
        if nm0 = nm1 then do
          let b ← isEqual n E len fc0 fc1
          if b then isEqualClosures n E len c0 c1 else .ok false
        else .ok false
      | .ConstLit c0, .ConstLit c1 => .ok (Const.ceq c0 c1)
      | _, _ => .ok false
termination_by structural n => n

/-- The pointwise comparison of two zipped elimination spines inside the
Stuck arm of is_equal (semantics.rs lines 1331-1340). -/
def isEqualSpine : Nat → GEnv → Nat → List (Elim × Elim) → Except RunErr Bool
  | 0, _, _, _ => .error .fuel
  | _ + 1, _, _, [] => .ok true
  | n + 1, E, len, (e0, e1) :: rest =>
    match e0, e1 with
    | .funApp a0, .funApp a1 => do
      let b ← isEqual n E len a0 a1
      if b then isEqualSpine n E len rest else .ok false
    | .recordProj l0, .recordProj l1 =>
      if l0 = l1 then isEqualSpine n E len rest else .ok false
    | .constMatch b0, .constMatch b1 => do
      let b ← isEqualBranches n E len b0 b1
      if b then isEqualSpine n E len rest else .ok false
    | _, _ => .ok false
termination_by structural n => n

/-- ConversionEnv::is_equal_closures: compare two closures under one fresh
local variable (semantics.rs lines 1398-1408). -/
def isEqualClosures : Nat → GEnv → Nat → Closure → Closure → Except RunErr Bool
  | 0, _, _, _, _ => .error .fuel
  | n + 1, E, len, c0, c1 => do
    let v0 ← applyClosure n E c0 (Value.localVar len)
    let v1 ← applyClosure n E c1 (Value.localVar len)
    isEqual n E (len + 1) v0 v1
termination_by structural n => n

/-- ConversionEnv::is_equal_telescopes: equal lengths, then the lock-step
loop (semantics.rs lines 1411-1441). -/
def isEqualTelescopes : Nat → GEnv → Nat → Telescope → Telescope → Except RunErr Bool
  | 0, _, _, _, _ => .error .fuel
  | n + 1, E, len, t0, t1 =>
    if t0.terms.length = t1.terms.length then isEqualTelesGo n E len t0 t1
    else .ok false
termination_by structural n => n

/-- The lock-step loop of is_equal_telescopes: split both telescopes,
compare the first values, push one fresh variable and continue. -/
def isEqualTelesGo : Nat → GEnv → Nat → Telescope → Telescope → Except RunErr Bool
  | 0, _, _, _, _ => .error .fuel
  | n + 1, E, len, t0, t1 => do
    match ← splitTelescope n E t0, ← splitTelescope n E t1 with
    | some (v0, r0), some (v1, r1) => do
      let b ← isEqual n E len v0 v1
      if b then
        isEqualTelesGo n E (len + 1) (r0.push (Value.localVar len))
          (r1.push (Value.localVar len))
      else .ok false
    | _, _ => .ok true
termination_by structural n => n

/-- ElimEnv::split_telescope: evaluate the first term of the telescope
(through format_repr when the apply_repr flag is set) and return it with
the rest of the telescope; the caller pushes the previous binding's value
via Telescope.push (semantics.rs lines 670-689). -/
def splitTelescope : Nat → GEnv → Telescope → Except RunErr (Option (Value × Telescope))
  | 0, _, _ => .error .fuel
  | n + 1, E, .mk locals flag terms =>
    match terms with
    | [] => .ok none
    | t :: ts => do
      let ev ← eval n E locals t
      let v ← if flag then formatRepr ev else pure ev
      .ok (some (v, .mk locals flag ts))

/-- ElimEnv::split_branches: evaluate the first pattern branch body, or
return the default closure or nothing (semantics.rs lines 691-708). -/
def splitBranches : Nat → GEnv → Branches → Except RunErr SplitB
  | 0, _, _ => .error .fuel
  | n + 1, E, .mk locals ((pat, body) :: rest) dflt => do
    let v ← eval n E locals body
    .ok (.branch (pat, v) (.mk locals rest dflt))
  | _ + 1, _, .mk locals [] (some d) => .ok (.dflt (.mk locals d))
  | _ + 1, _, .mk _ [] none => .ok .nil

/-- ConversionEnv::is_equal_branches: split both branch lists in lock-step
and compare patterns and bodies; defaults are compared as closures
(semantics.rs lines 1444-1473). -/
def isEqualBranches : Nat → GEnv → Nat → Branches → Branches → Except RunErr Bool
  | 0, _, _, _, _ => .error .fuel
  | n + 1, E, len, b0, b1 => do
    match ← splitBranches n E b0, ← splitBranches n E b1 with
    | .branch (c0, v0) r0, .branch (c1, v1) r1 =>
      if Const.ceq c0 c1 then do
        let b ← isEqual n E len v0 v1
        if b then isEqualBranches n E len r0 r1 else .ok false
      else .ok false
    | .dflt d0, .dflt d1 => isEqualClosures n E len d0 d1
    | .nil, .nil => .ok true
    | _, _ => .ok false
termination_by structural n => n

/-- ConversionEnv::is_equal_fun_lit: eta-conversion of a function literal
against another value (semantics.rs lines 1480-1490). -/
def isEqualFunLit : Nat → GEnv → Nat → Closure → Value → Except RunErr Bool
  | 0, _, _, _, _ => .error .fuel
  | n + 1, E, len, body, value => do
    let v ← funApp n E value (Value.localVar len)
    let b ← applyClosure n E body (Value.localVar len)
    isEqual n E (len + 1) b v
termination_by structural n => n

/-- ConversionEnv::is_equal_record_lit: eta-conversion of a record literal
against another value, comparing each field with the projection from the
other side (semantics.rs lines 1497-1507). -/
def isEqualRecordLit : Nat → GEnv → Nat → List (Nat × Value) → Value → Except RunErr Bool
  | 0, _, _, _, _ => .error .fuel
  | _ + 1, _, _, [], _ => .ok true
  | n + 1, E, len, (label, expr) :: rest, value => do
    let field ← recordProj value label
    let b ← isEqual n E len expr field
    if b then isEqualRecordLit n E len rest value else .ok false
termination_by structural n => n
end

/-- The pointwise comparison of zipped value pairs (the all-iterators of
the RecordLit and ArrayLit arms of is_equal, semantics.rs lines 1362
and 1372-1375), named for use in statements. -/
def isEqualList (n : Nat) (E : GEnv) (len : Nat) (pairs : List (Value × Value)) :
    Except RunErr Bool :=
  pairs.allM (fun pr => isEqual n E len pr.1 pr.2)

end Fathom


/-!
The minimal experiment, experiments/rust-minimal/src/lib.rs: a small
dependently typed lambda calculus with an NbE evaluator and a
bidirectional elaborator. Interned strings and de Bruijn data are Nat;
the u16 sizes of the source (LocalVar, GlobalVar, EnvLen) are modelled as
unbounded Nat, so the out-of-range report of synth for indices above
u16::MAX cannot fire here.
-/

namespace Mini

/-- Core language terms (lib.rs core::Term). The second and third fields
of Let are kept in the order the elaborator supplies them; eval reads the
third field as the definition expression (lib.rs line 240). -/
inductive Term where
  | Var (i : Nat)
  | Let (name : Nat) (f2 f3 body : Term)
  | Universe
  | FunType (name : Nat) (inputType outputType : Term)
  | FunIntro (name : Nat) (outputExpr : Term)
  | FunElim (head input : Term)
deriving DecidableEq, Repr

mutual

/-- Values in weak-head-normal form (lib.rs semantics::Value). -/
inductive Value where
  | Stuck (global : Nat) (elims : List Elim)
  | Universe
  | FunType (name : Nat) (inputType : Value) (outputType : Closure)
  | FunIntro (name : Nat) (outputExpr : Closure)

/-- A pending elimination (lib.rs semantics::Elim). -/
inductive Elim where
  | Fun (input : Value)

/-- A closure: captured environment and body (lib.rs semantics::Closure). -/
inductive Closure where
  | mk (env : List Value) (body : Term)

end

def Closure.env : Closure → List Value
  | .mk e _ => e

def Closure.body : Closure → Term
  | .mk _ b => b

/-- Nat::checked_sub. -/
def checkedSub (a b : Nat) : Option Nat :=
  if b ≤ a then some (a - b) else none

/-- EnvLen::local_to_global (lib.rs lines 59-61): two checked
subtractions, so the result exists exactly when the local index is below
the length. -/
def localToGlobal (len l : Nat) : Option Nat := do
  let a ← checkedSub len l
  checkedSub a 1

/-- Env::get_global (lib.rs lines 100-102): position from the start. -/
def getGlobal (env : List α) (g : Nat) : Option α :=
  env[g]?

/-- Env::get_local (lib.rs lines 104-106): total environment lookup via
the option-returning index conversion. -/
def getLocal (env : List α) (l : Nat) : Option α := do
  let g ← localToGlobal env.length l
  getGlobal env g

/-- Evaluation errors (lib.rs semantics::EvalError). -/
inductive EvalError where
  | MisboundLocal
  | InvalidFunctionElimHead
deriving DecidableEq, Repr

/-- Outcome marker for the fueled embedding of the minimal semantics:
either one of the source's EvalError values, or fuel exhaustion. -/
inductive MErr where
  | ev (e : EvalError)
  | fuel
deriving DecidableEq, Repr

mutual

/-- semantics::eval (lib.rs lines 231-263). Local variables are looked up
with get_local; an unbound local yields Err(MisboundLocal). -/
def eval : Nat → List Value → Term → Except MErr Value
  | 0, _, _ => .error .fuel
  | n + 1, env, t =>
    match t with
    | .Var l =>
      match getLocal env l with
      | some v => .ok v
      | none => .error (.ev .MisboundLocal)
    | .Let _ _ expr body => do
      let v ← eval n env expr
      eval n (env ++ [v]) body
    | .Universe => .ok .Universe
    | .FunType name it ot => do
      let itv ← eval n env it
      .ok (.FunType name itv (.mk env ot))
    | .FunIntro name oe => .ok (.FunIntro name (.mk env oe))
    | .FunElim h i => do
      let hv ← eval n env h
      let iv ← eval n env i
      funElim n hv iv
termination_by structural n => n

/-- Closure::apply (lib.rs lines 206-213): push the input onto the
captured environment and evaluate the body. -/
def applyC : Nat → Closure → Value → Except MErr Value
  | 0, _, _ => .error .fuel
  | n + 1, clo, input => eval n (clo.env ++ [input]) clo.body
termination_by structural n => n

/-- semantics::fun_elim (lib.rs lines 265-277). -/
def funElim : Nat → Value → Value → Except MErr Value
  | 0, _, _ => .error .fuel
  | n + 1, head, input =>
    match head with
    | .FunIntro _ oe => applyC n oe input
    | .Stuck g elims => .ok (.Stuck g (elims ++ [.Fun input]))
    | _ => .error (.ev .InvalidFunctionElimHead)
termination_by structural n => n

end

mutual

/-- semantics::is_equal (lib.rs lines 327-383): conversion checking at an
environment length, with eta-conversion for function introductions. -/
def isEqual : Nat → Nat → Value → Value → Except MErr Bool
  | 0, _, _, _ => .error .fuel
  | n + 1, len, v0, v1 =>
    match v0, v1 with
    | .Stuck g0 e0, .Stuck g1 e1 =>
      if g0 = g1 ∧ e0.length = e1.length then isEqualElims n len (e0.zip e1)
      else .ok false
    | .Universe, .Universe => .ok true
    | .FunType _ it0 ot0, .FunType _ it1 ot1 => do
      let b ← isEqual n len it0 it1
      if b then do
        let o0 ← applyC n ot0 (.Stuck len [])
        let o1 ← applyC n ot1 (.Stuck len [])
        isEqual n (len + 1) o0 o1
      else .ok false
    | .FunIntro _ o0, .FunIntro _ o1 => do
      let a ← applyC n o0 (.Stuck len [])
      let b ← applyC n o1 (.Stuck len [])
      isEqual n (len + 1) a b
    | .FunIntro _ oe, w1 => do
      let a ← applyC n oe (.Stuck len [])
      let b ← funElim n w1 (.Stuck len [])
      isEqual n (len + 1) a b
    | w0, .FunIntro _ oe => do
      let a ← funElim n w0 (.Stuck len [])
      let b ← applyC n oe (.Stuck len [])
      isEqual n (len + 1) a b
    | _, _ => .ok false
termination_by structural n => n

/-- The spine loop of is_equal (lib.rs lines 337-343): pointwise
comparison of zipped eliminations. -/
def isEqualElims : Nat → Nat → List (Elim × Elim) → Except MErr Bool
  | 0, _, _ => .error .fuel
  | _ + 1, _, [] => .ok true
  | n + 1, len, (.Fun i0, .Fun i1) :: rest => do
    let b ← isEqual n len i0 i1
    if b then isEqualElims n len rest else .ok false
termination_by structural n => n

end

/-- Surface language terms (lib.rs surface::Term). -/
inductive STerm where
  | Var (name : Nat)
  | Let (name : Nat) (defType defExpr body : STerm)
  | Universe
  | FunType (name : Nat) (inputType outputType : STerm)
  | FunIntro (name : Nat) (outputExpr : STerm)
  | FunElim (head input : STerm)
deriving DecidableEq, Repr

/-- Is the surface term a let expression (the first match arm of
Context::check)? -/
def STerm.isLet : STerm → Bool
  | .Let _ _ _ _ => true
  | _ => false

/-- Is the surface term a function introduction? -/
def STerm.isFunIntro : STerm → Bool
  | .FunIntro _ _ => true
  | _ => false

/-- Is the value a function type? -/
def Value.isFunType : Value → Bool
  | .FunType _ _ _ => true
  | _ => false

/-- Elaboration context (lib.rs elaboration::Context): the name-type
stack, the value environment and the diagnostic messages. -/
structure Ctx where
  types : List (Nat × Value)
  env : List Value
  messages : List String

/-- Context::report (lib.rs lines 532-535): push a message (the source
then yields None at the call site). -/
def Ctx.report (ctx : Ctx) (msg : String) : Ctx :=
  { ctx with messages := ctx.messages ++ [msg] }

/-- Context::push_entry (lib.rs lines 511-519). -/
def Ctx.pushEntry (ctx : Ctx) (name : Nat) (value ty : Value) : Ctx :=
  { ctx with types := ctx.types ++ [(name, ty)], env := ctx.env ++ [value] }

/-- Context::push_param (lib.rs lines 521-525): bind a fresh stuck
variable at the next global level. -/
def Ctx.pushParam (ctx : Ctx) (name : Nat) (ty : Value) : Ctx × Value :=
  let value : Value := .Stuck ctx.env.length []
  (ctx.pushEntry name value ty, value)

/-- Context::pop_entry (lib.rs lines 527-530). -/
def Ctx.popEntry (ctx : Ctx) : Ctx :=
  { ctx with types := ctx.types.dropLast, env := ctx.env.dropLast }

/-- Fuel marker for the fueled elaborator. -/
inductive MFuel where
  | fuel
deriving DecidableEq, Repr

/-- Context::eval (lib.rs lines 545-547): semantic errors are downgraded
to None by .ok(); fuel exhaustion stays distinguished. -/
def ctxEval (n : Nat) (ctx : Ctx) (t : Term) : Except MFuel (Option Value) :=
  match eval n ctx.env t with
  | .ok v => .ok (some v)
  | .error (.ev _) => .ok none
  | .error .fuel => .error .fuel

/-- Context::is_equal (lib.rs lines 549-555): .ok() on the result. -/
def ctxIsEqual (n : Nat) (ctx : Ctx) (v0 v1 : Value) : Except MFuel (Option Bool) :=
  match isEqual n ctx.env.length v0 v1 with
  | .ok b => .ok (some b)
  | .error (.ev _) => .ok none
  | .error .fuel => .error .fuel

/-- Closure application with .ok() as used by the elaborator
(lib.rs lines 589 and 670). -/
def ctxApplyC (n : Nat) (clo : Closure) (v : Value) : Except MFuel (Option Value) :=
  match applyC n clo v with
  | .ok w => .ok (some w)
  | .error (.ev _) => .ok none
  | .error .fuel => .error .fuel

/-- The reversed-enumerate scan of Context::synth for variables
(lib.rs lines 612-621): walk from the top of the stack, counting the de
Bruijn index. -/
def lookupVarGo : List (Nat × Value) → Nat → Nat → Option (Nat × Value)
  | [], _, _ => none
  | (nm, ty) :: rest, name, i =>
    if nm = name then some (i, ty) else lookupVarGo rest name (i + 1)

def lookupVar (types : List (Nat × Value)) (name : Nat) : Option (Nat × Value) :=
  lookupVarGo types.reverse name 0

mutual

/-- Context::check (lib.rs lines 560-602). Returns the updated context
(diagnostics, and any entries left pushed on the error paths the source
marks with FIXME comments) and the elaborated term, or none. -/
def check : Nat → Ctx → STerm → Value → Except MFuel (Ctx × Option Term)
  | 0, _, _, _ => .error .fuel
  | n + 1, ctx, st, expected =>
    match st, expected with
    | .Let name dt de be, _ => do
      let (ctx1, dtr) ← check n ctx dt .Universe
      match dtr with
      | none => .ok (ctx1, none)
      | some dtTerm => do
        let dtv? ← ctxEval n ctx1 dtTerm
        match dtv? with
        | none => .ok (ctx1, none)
        | some dtv => do
          let (ctx2, der) ← check n ctx1 de dtv
          match der with
          | none => .ok (ctx2, none)
          | some deTerm => do
            let dev? ← ctxEval n ctx2 deTerm
            match dev? with
            | none => .ok (ctx2, none)
            | some dev => do
              let ctx3 := ctx2.pushEntry name dev dtv
              let (ctx4, ber) ← check n ctx3 be expected
              match ber with
              | none => .ok (ctx4, none)
              | some beTerm =>
                .ok (ctx4.popEntry, some (.Let name deTerm dtTerm beTerm))
    | .FunIntro name oe, .FunType _ it ot => do
      let (ctx1, inputVar) := ctx.pushParam name it
      let otv? ← ctxApplyC n ot inputVar
      match otv? with
      | none => .ok (ctx1, none)
      | some otv => do
        let (ctx2, oer) ← check n ctx1 oe otv
        match oer with
        | none => .ok (ctx2, none)
        | some oeTerm => .ok (ctx2.popEntry, some (.FunIntro name oeTerm))
    | t, e => do
      let (ctx1, sr) ← synth n ctx t
      match sr with
      | none => .ok (ctx1, none)
      | some (tm, ty) => do
        let eq? ← ctxIsEqual n ctx1 ty e
        match eq? with
        | none => .ok (ctx1, none)
        | some true => .ok (ctx1, some tm)
        | some false => .ok (ctx1.report "error: type mismatch", none)
termination_by structural n => n

/-- Context::synth (lib.rs lines 607-683). -/
def synth : Nat → Ctx → STerm → Except MFuel (Ctx × Option (Term × Value))
  | 0, _, _ => .error .fuel
  | n + 1, ctx, st =>
    match st with
    | .Var name =>
      match lookupVar ctx.types name with
      | some (i, ty) => .ok (ctx, some (.Var i, ty))
      | none => .ok (ctx.report "error: variable out of scope", none)
    | .Let name dt de be => do
      let (ctx1, dtr) ← check n ctx dt .Universe
      match dtr with
      | none => .ok (ctx1, none)
      | some dtTerm => do
        let dtv? ← ctxEval n ctx1 dtTerm
        match dtv? with
        | none => .ok (ctx1, none)
        | some dtv => do
          let (ctx2, der) ← check n ctx1 de dtv
          match der with
          | none => .ok (ctx2, none)
          | some deTerm => do
            let dev? ← ctxEval n ctx2 deTerm
            match dev? with
            | none => .ok (ctx2, none)
            | some dev => do
              let ctx3 := ctx2.pushEntry name dev dtv
              let (ctx4, ber) ← synth n ctx3 be
              match ber with
              | none => .ok (ctx4, none)
              | some (beTerm, beTy) =>
                .ok (ctx4.popEntry, some (.Let name deTerm dtTerm beTerm, beTy))
    | .Universe => .ok (ctx, some (.Universe, .Universe))
    | .FunType name it ot => do
      let (ctx1, itr) ← check n ctx it .Universe
      match itr with
      | none => .ok (ctx1, none)
      | some itTerm => do
        let itv? ← ctxEval n ctx1 itTerm
        match itv? with
        | none => .ok (ctx1, none)
        | some itv => do
          let (ctx2, _) := ctx1.pushParam name itv
          let (ctx3, otr) ← check n ctx2 ot .Universe
          match otr with
          | none => .ok (ctx3, none)
          | some otTerm =>
            .ok (ctx3.popEntry, some (.FunType name itTerm otTerm, .Universe))
    | .FunIntro _ _ => .ok (ctx.report "error: ambiguous function introduction", none)
    | .FunElim h i => do
      let (ctx1, hr) ← synth n ctx h
      match hr with
      | none => .ok (ctx1, none)
      | some (hTerm, hTy) =>
        match hTy with
        | .FunType _ it ot => do
          let (ctx2, ir) ← check n ctx1 i it
          match ir with
          | none => .ok (ctx2, none)
          | some iTerm => do
            let iv? ← ctxEval n ctx2 iTerm
            match iv? with
            | none => .ok (ctx2, none)
            | some iv => do
              let otv? ← ctxApplyC n ot iv
              match otv? with
              | none => .ok (ctx2, none)
              | some otv => .ok (ctx2, some (.FunElim hTerm iTerm, otv))
        | _ => .ok (ctx1.report "error: expected a function type", none)
termination_by structural n => n

end

/-- Name erasure on core terms: every binder name becomes 0. Evaluation
and conversion never read these names, which is what the erasure lemmas
below make precise. -/
def tstrip : Term → Term
  | .Var i => .Var i
  | .Let _ a b c => .Let 0 (tstrip a) (tstrip b) (tstrip c)
  | .Universe => .Universe
  | .FunType _ a b => .FunType 0 (tstrip a) (tstrip b)
  | .FunIntro _ a => .FunIntro 0 (tstrip a)
  | .FunElim a b => .FunElim (tstrip a) (tstrip b)

mutual

/-- Name erasure on values. -/
def vstrip : Value → Value
  | .Stuck g elims => .Stuck g (estripList elims)
  | .Universe => .Universe
  | .FunType _ it ot => .FunType 0 (vstrip it) (cstrip ot)
  | .FunIntro _ oe => .FunIntro 0 (cstrip oe)

/-- Name erasure on elimination lists. -/
def estripList : List Elim → List Elim
  | [] => []
  | .Fun v :: rest => .Fun (vstrip v) :: estripList rest

/-- Name erasure on closures. -/
def cstrip : Closure → Closure
  | .mk env body => .mk (vstripList env) (tstrip body)

/-- Name erasure on value environments. -/
def vstripList : List Value → List Value
  | [] => []
  | v :: rest => vstrip v :: vstripList rest

end

end Mini

/-!
Helper lemmas shared by the claim theorems.
-/

namespace Fathom

theorem bindOkEq {e a b : Type} (x : a) (f : a → Except e b) :
    (Except.ok x : Except e a) >>= f = f x := rfl

theorem bindErrEq {e a b : Type} (x : e) (f : a → Except e b) :
    (Except.error x : Except e a) >>= f = .error x := rfl

/-- Forcing leaves any value that is not stuck on a metavariable
unchanged (the while condition of ElimEnv::force fails immediately). -/
theorem forceOkOfNotMeta (n : Nat) (E : GEnv) (v : Value)
    (hv : ∀ m sp, v ≠ .Stuck (.metaVar m) sp) : force (n + 1) E v = .ok v := by
  rw [force.eq_def]
  rcases v with ⟨hd, sp⟩ | _ | _ | _ | _ | _ | _ | _ | _ | _ | _
  case Stuck =>
    rcases hd with p | l | m
    · rfl
    · rfl
    · exact absurd rfl (hv _ _)
  all_goals rfl

theorem forcePrimStuck (n : Nat) (E : GEnv) (p : Prim) (sp : List Elim) :
    force (n + 1) E (.Stuck (.prim p) sp) = .ok (.Stuck (.prim p) sp) := rfl

theorem isReportedErrRE (sp : List Elim) :
    Value.isReportedErr (.Stuck (.prim .ReportedError) sp) = true := rfl

/-- Unfolding of the is_equal entry: ReportedError on the left short
circuits to true as soon as the right-hand value has been forced. -/
theorem isEqualRELeftEq (n : Nat) (E : GEnv) (len : Nat) (sp : List Elim) (v : Value) :
    isEqual (n + 2) E len (.Stuck (.prim .ReportedError) sp) v =
      (force (n + 1) E v).bind (fun _ => .ok true) := rfl

/-- The ArrayLit arm of is_equal: lengths are not consulted, the zipped
elements are compared pointwise. -/
theorem isEqualArrayArm (n : Nat) (E : GEnv) (len : Nat) (xs ys : List Value) :
    isEqual (n + 2) E len (.ArrayLit xs) (.ArrayLit ys) =
      isEqualList (n + 1) E len (xs.zip ys) := rfl

/-- The pointwise comparison returns true exactly when every zipped pair
compares equal (errors and a false pair both refute the left side). -/
theorem isEqualListOkTrue (n : Nat) (E : GEnv) (len : Nat) (pairs : List (Value × Value)) :
    isEqualList n E len pairs = .ok true ↔
      ∀ pr ∈ pairs, isEqual n E len pr.1 pr.2 = .ok true := by
  induction pairs with
  | nil => simp [isEqualList, List.allM, pure, Except.pure]
  | cons hd tl ih =>
    simp only [isEqualList, List.allM] at ih ⊢
    cases hq : isEqual n E len hd.1 hd.2 with
    | ok b =>
      cases b with
      | true => simp [hq, bindOkEq, ih]
      | false => simp [hq, bindOkEq, pure, Except.pure]
    | error e => simp [hq, bindErrEq]

/-- The branch scan of const_match is the first match by the
style-agnostic constant equality. -/
theorem findBranchEqFind (c : Const) (pats : List (Const × Term)) :
    findBranch c pats = (pats.find? (fun pr => Const.ceq c pr.1)).map Prod.snd := by
  induction pats with
  | nil => simp [findBranch]
  | cons hd tl ih =>
    rcases hd with ⟨bc, body⟩
    by_cases h : Const.ceq c bc
    · simp [findBranch, h, List.find?]
    · simp only [findBranch, h, if_false, ih, List.find?]
      simp [h]

theorem constMatchConstArm (n : Nat) (E : GEnv) (c : Const) (locals : List Value)
    (pats : List (Const × Term)) (dflt : Option Term) :
    constMatch (n + 1) E (.ConstLit c) (.mk locals pats dflt) =
      (match findBranch c pats with
        | some body => eval n E locals body
        | none =>
          match dflt with
          | some d => eval n E (locals ++ [.ConstLit c]) d
          | none => .error (.err .MissingConstDefault)) := rfl

/-!
Claim theorems about the fathom core semantics.
-/

/-- C1: format_repr rewrites the atomic integer formats to their host
integer types (FormatU8 to U8Type, the big- and little-endian variants of
each width to the same host type), rewrites FormatLimitN(limit, elem) to
format_repr(elem) for every N in 8, 16, 32, 64, and rewrites
FormatCond(name, f, cond) to format_repr(f). -/
theorem c1_format_repr_rules :
    (formatRepr (Value.primApp .FormatU8 []) = .ok (Value.primApp .U8Type [])) ∧
    (formatRepr (Value.primApp .FormatU16Be []) = .ok (Value.primApp .U16Type [])) ∧
    (formatRepr (Value.primApp .FormatU16Le []) = .ok (Value.primApp .U16Type [])) ∧
    (formatRepr (Value.primApp .FormatU32Be []) = .ok (Value.primApp .U32Type [])) ∧
    (formatRepr (Value.primApp .FormatU32Le []) = .ok (Value.primApp .U32Type [])) ∧
    (formatRepr (Value.primApp .FormatU64Be []) = .ok (Value.primApp .U64Type [])) ∧
    (formatRepr (Value.primApp .FormatU64Le []) = .ok (Value.primApp .U64Type [])) ∧
    (formatRepr (Value.primApp .FormatS8 []) = .ok (Value.primApp .S8Type [])) ∧
    (formatRepr (Value.primApp .FormatS16Be []) = .ok (Value.primApp .S16Type [])) ∧
    (formatRepr (Value.primApp .FormatS16Le []) = .ok (Value.primApp .S16Type [])) ∧
    (formatRepr (Value.primApp .FormatS32Be []) = .ok (Value.primApp .S32Type [])) ∧
    (formatRepr (Value.primApp .FormatS32Le []) = .ok (Value.primApp .S32Type [])) ∧
    (formatRepr (Value.primApp .FormatS64Be []) = .ok (Value.primApp .S64Type [])) ∧
    (formatRepr (Value.primApp .FormatS64Le []) = .ok (Value.primApp .S64Type [])) ∧
    (∀ limit elem, formatRepr (.Stuck (.prim .FormatLimit8) [.funApp limit, .funApp elem]) =
      formatRepr elem) ∧
    (∀ limit elem, formatRepr (.Stuck (.prim .FormatLimit16) [.funApp limit, .funApp elem]) =
      formatRepr elem) ∧
    (∀ limit elem, formatRepr (.Stuck (.prim .FormatLimit32) [.funApp limit, .funApp elem]) =
      formatRepr elem) ∧
    (∀ limit elem, formatRepr (.Stuck (.prim .FormatLimit64) [.funApp limit, .funApp elem]) =
      formatRepr elem) ∧
    (∀ name f cond, formatRepr (.FormatCond name f cond) = formatRepr f) := by
  refine ⟨?_, ?_, ?_, ?_, ?_, ?_, ?_, ?_, ?_, ?_, ?_, ?_, ?_, ?_,
    ?_, ?_, ?_, ?_, ?_⟩ <;>
    intros <;> simp [formatRepr, formatReprPrim, Value.primApp]

/-- C2: a value stuck on the ReportedError primitive, with any spine, is
convertible with every value in both argument orders; the only proviso is
that forcing the other side terminates without a panic, which is what the
source does before dispatching on the pair. -/
theorem c2_reported_error_absorbing (n : Nat) (E : GEnv) (len : Nat) (sp : List Elim)
    (v w : Value) (h : force (n + 1) E v = .ok w) :
    isEqual (n + 2) E len (.Stuck (.prim .ReportedError) sp) v = .ok true ∧
    isEqual (n + 2) E len v (.Stuck (.prim .ReportedError) sp) = .ok true := by
  constructor
  · rw [isEqualRELeftEq, h]
    rfl
  · rw [isEqual, h]
    rw [bindOkEq, forcePrimStuck, bindOkEq]
    simp [isReportedErrRE]

/-- C2 witness: at the empty environment, ReportedError is convertible
with Universe in both orders. -/
theorem c2_reported_error_absorbing_witness :
    isEqual 2 ⟨[], []⟩ 0 (.Stuck (.prim .ReportedError) []) .Universe = .ok true ∧
    isEqual 2 ⟨[], []⟩ 0 .Universe (.Stuck (.prim .ReportedError) []) = .ok true :=
  c2_reported_error_absorbing 0 ⟨[], []⟩ 0 [] .Universe .Universe rfl

end Fathom

namespace Fathom

/-! Unfoldings of prim_step at the primitives used by claim C3. Each is a
definitional equation dispatching to the pure step helper. -/

theorem primStepU8AddEq (n : Nat) (E : GEnv) (sp : List Elim) :
    primStep (n + 1) E .U8Add sp = .ok (arithU8 (uCheckedAdd 8) sp) := rfl

theorem primStepU8SubEq (n : Nat) (E : GEnv) (sp : List Elim) :
    primStep (n + 1) E .U8Sub sp = .ok (arithU8 uCheckedSub sp) := rfl

theorem primStepU8MulEq (n : Nat) (E : GEnv) (sp : List Elim) :
    primStep (n + 1) E .U8Mul sp = .ok (arithU8 (uCheckedMul 8) sp) := rfl

theorem primStepU8DivEq (n : Nat) (E : GEnv) (sp : List Elim) :
    primStep (n + 1) E .U8Div sp = .ok (arithU8 uCheckedDiv sp) := rfl

theorem primStepU8ShlEq (n : Nat) (E : GEnv) (sp : List Elim) :
    primStep (n + 1) E .U8Shl sp = .ok (shiftU8 (uCheckedShl 8) sp) := rfl

theorem primStepU8ShrEq (n : Nat) (E : GEnv) (sp : List Elim) :
    primStep (n + 1) E .U8Shr sp = .ok (shiftU8 (uCheckedShr 8) sp) := rfl

theorem primStepU16AddEq (n : Nat) (E : GEnv) (sp : List Elim) :
    primStep (n + 1) E .U16Add sp = .ok (arithU16 (uCheckedAdd 16) sp) := rfl

theorem primStepU16DivEq (n : Nat) (E : GEnv) (sp : List Elim) :
    primStep (n + 1) E .U16Div sp = .ok (arithU16 uCheckedDiv sp) := rfl

theorem primStepU16ShlEq (n : Nat) (E : GEnv) (sp : List Elim) :
    primStep (n + 1) E .U16Shl sp = .ok (shiftU16 (uCheckedShl 16) sp) := rfl

theorem primStepU32AddEq (n : Nat) (E : GEnv) (sp : List Elim) :
    primStep (n + 1) E .U32Add sp = .ok (arithU32 (uCheckedAdd 32) sp) := rfl

theorem primStepU32DivEq (n : Nat) (E : GEnv) (sp : List Elim) :
    primStep (n + 1) E .U32Div sp = .ok (arithU32 uCheckedDiv sp) := rfl

theorem primStepU32ShlEq (n : Nat) (E : GEnv) (sp : List Elim) :
    primStep (n + 1) E .U32Shl sp = .ok (shiftU32 (uCheckedShl 32) sp) := rfl

theorem primStepU64AddEq (n : Nat) (E : GEnv) (sp : List Elim) :
    primStep (n + 1) E .U64Add sp = .ok (arithU64 (uCheckedAdd 64) sp) := rfl

theorem primStepU64DivEq (n : Nat) (E : GEnv) (sp : List Elim) :
    primStep (n + 1) E .U64Div sp = .ok (arithU64 uCheckedDiv sp) := rfl

theorem primStepU64ShlEq (n : Nat) (E : GEnv) (sp : List Elim) :
    primStep (n + 1) E .U64Shl sp = .ok (shiftU64 (uCheckedShl 64) sp) := rfl

theorem primStepS8AddEq (n : Nat) (E : GEnv) (sp : List Elim) :
    primStep (n + 1) E .S8Add sp = .ok (arithS8 (sCheckedAdd 8) sp) := rfl

theorem primStepS8DivEq (n : Nat) (E : GEnv) (sp : List Elim) :
    primStep (n + 1) E .S8Div sp = .ok (arithS8 (sCheckedDiv 8) sp) := rfl

/-- C3: reduction of the fixed-width arithmetic primitives at constant
literals is checked, never wrapping: an addition whose exact sum exceeds
the width, a division by zero and a shift by at least the bit width all
make prim_step yield no result, for the unsigned widths 8, 16, 32 and 64
(subtraction below zero and multiplication overflow shown at width 8, and
checked behaviour also shown for the signed width 8), and fun_app then
leaves the application stuck with the argument pushed onto the spine: in
particular U8Add applied to 255 and 1 stays stuck as Prim(U8Add) 255 1. -/
theorem c3_checked_arithmetic (n : Nat) (E : GEnv) :
    (∀ x y s0 s1, 2 ^ 8 ≤ x + y → primStep (n + 1) E .U8Add
      [.funApp (.ConstLit (.u8 x s0)), .funApp (.ConstLit (.u8 y s1))] = .ok none) ∧
    (∀ x y s0 s1, x < y → primStep (n + 1) E .U8Sub
      [.funApp (.ConstLit (.u8 x s0)), .funApp (.ConstLit (.u8 y s1))] = .ok none) ∧
    (∀ x y s0 s1, 2 ^ 8 ≤ x * y → primStep (n + 1) E .U8Mul
      [.funApp (.ConstLit (.u8 x s0)), .funApp (.ConstLit (.u8 y s1))] = .ok none) ∧
    (∀ x s0 s1, primStep (n + 1) E .U8Div
      [.funApp (.ConstLit (.u8 x s0)), .funApp (.ConstLit (.u8 0 s1))] = .ok none) ∧
    (∀ x s s0 s1, 8 ≤ s → primStep (n + 1) E .U8Shl
      [.funApp (.ConstLit (.u8 x s0)), .funApp (.ConstLit (.u8 s s1))] = .ok none) ∧
    (∀ x s s0 s1, 8 ≤ s → primStep (n + 1) E .U8Shr
      [.funApp (.ConstLit (.u8 x s0)), .funApp (.ConstLit (.u8 s s1))] = .ok none) ∧
    (∀ x y s0 s1, 2 ^ 16 ≤ x + y → primStep (n + 1) E .U16Add
      [.funApp (.ConstLit (.u16 x s0)), .funApp (.ConstLit (.u16 y s1))] = .ok none) ∧
    (∀ x s0 s1, primStep (n + 1) E .U16Div
      [.funApp (.ConstLit (.u16 x s0)), .funApp (.ConstLit (.u16 0 s1))] = .ok none) ∧
    (∀ x s s0 s1, 16 ≤ s → primStep (n + 1) E .U16Shl
      [.funApp (.ConstLit (.u16 x s0)), .funApp (.ConstLit (.u8 s s1))] = .ok none) ∧
    (∀ x y s0 s1, 2 ^ 32 ≤ x + y → primStep (n + 1) E .U32Add
      [.funApp (.ConstLit (.u32 x s0)), .funApp (.ConstLit (.u32 y s1))] = .ok none) ∧
    (∀ x s0 s1, primStep (n + 1) E .U32Div
      [.funApp (.ConstLit (.u32 x s0)), .funApp (.ConstLit (.u32 0 s1))] = .ok none) ∧
    (∀ x s s0 s1, 32 ≤ s → primStep (n + 1) E .U32Shl
      [.funApp (.ConstLit (.u32 x s0)), .funApp (.ConstLit (.u8 s s1))] = .ok none) ∧
    (∀ x y s0 s1, 2 ^ 64 ≤ x + y → primStep (n + 1) E .U64Add
      [.funApp (.ConstLit (.u64 x s0)), .funApp (.ConstLit (.u64 y s1))] = .ok none) ∧
    (∀ x s0 s1, primStep (n + 1) E .U64Div
      [.funApp (.ConstLit (.u64 x s0)), .funApp (.ConstLit (.u64 0 s1))] = .ok none) ∧
    (∀ x s s0 s1, 64 ≤ s → primStep (n + 1) E .U64Shl
      [.funApp (.ConstLit (.u64 x s0)), .funApp (.ConstLit (.u8 s s1))] = .ok none) ∧
    (∀ x y, sMaxI 8 < x + y → primStep (n + 1) E .S8Add
      [.funApp (.ConstLit (.s8 x)), .funApp (.ConstLit (.s8 y))] = .ok none) ∧
    (∀ x, primStep (n + 1) E .S8Div
      [.funApp (.ConstLit (.s8 x)), .funApp (.ConstLit (.s8 0))] = .ok none) ∧
    (∀ s0 s1, funApp (n + 2) E (.Stuck (.prim .U8Add) [.funApp (.ConstLit (.u8 255 s0))])
      (.ConstLit (.u8 1 s1)) =
      .ok (.Stuck (.prim .U8Add)
        [.funApp (.ConstLit (.u8 255 s0)), .funApp (.ConstLit (.u8 1 s1))])) := by
  refine ⟨?_, ?_, ?_, ?_, ?_, ?_, ?_, ?_, ?_, ?_, ?_, ?_, ?_, ?_, ?_, ?_, ?_, ?_⟩
  · intro x y s0 s1 h
    rw [primStepU8AddEq]; simp [arithU8, uCheckedAdd]; omega
  · intro x y s0 s1 h
    rw [primStepU8SubEq]; simp [arithU8, uCheckedSub]; omega
  · intro x y s0 s1 h
    rw [primStepU8MulEq]; simp [arithU8, uCheckedMul]; omega
  · intro x s0 s1
    rw [primStepU8DivEq]; simp [arithU8, uCheckedDiv]
  · intro x s s0 s1 h
    rw [primStepU8ShlEq]; simp [shiftU8, uCheckedShl]; omega
  · intro x s s0 s1 h
    rw [primStepU8ShrEq]; simp [shiftU8, uCheckedShr]; omega
  · intro x y s0 s1 h
    rw [primStepU16AddEq]; simp [arithU16, uCheckedAdd]; omega
  · intro x s0 s1
    rw [primStepU16DivEq]; simp [arithU16, uCheckedDiv]
  · intro x s s0 s1 h
    rw [primStepU16ShlEq]; simp [shiftU16, uCheckedShl]; omega
  · intro x y s0 s1 h
    rw [primStepU32AddEq]; simp [arithU32, uCheckedAdd]; omega
  · intro x s0 s1
    rw [primStepU32DivEq]; simp [arithU32, uCheckedDiv]
  · intro x s s0 s1 h
    rw [primStepU32ShlEq]; simp [shiftU32, uCheckedShl]; omega
  · intro x y s0 s1 h
    rw [primStepU64AddEq]; simp [arithU64, uCheckedAdd]; omega
  · intro x s0 s1
    rw [primStepU64DivEq]; simp [arithU64, uCheckedDiv]
  · intro x s s0 s1 h
    rw [primStepU64ShlEq]; simp [shiftU64, uCheckedShl]; omega
  · intro x y h
    rw [primStepS8AddEq]
    simp [arithS8, sCheckedAdd, sChecked]
    intro h2
    omega
  · intro x
    rw [primStepS8DivEq]; simp [arithS8, sCheckedDiv]
  · intro s0 s1
    rfl

/-- C3 witness: the checked operations at concrete overflowing inputs,
and the concrete stuck value of 255 + 1 at width 8. -/
theorem c3_checked_arithmetic_witness :
    (primStep 1 ⟨[], []⟩ .U8Add
      [.funApp (.ConstLit (.u8 255 .decimal)), .funApp (.ConstLit (.u8 1 .decimal))] =
      .ok none) ∧
    (primStep 1 ⟨[], []⟩ .U8Div
      [.funApp (.ConstLit (.u8 7 .decimal)), .funApp (.ConstLit (.u8 0 .decimal))] =
      .ok none) ∧
    (primStep 1 ⟨[], []⟩ .U8Shl
      [.funApp (.ConstLit (.u8 1 .decimal)), .funApp (.ConstLit (.u8 8 .decimal))] =
      .ok none) ∧
    (funApp 2 ⟨[], []⟩ (.Stuck (.prim .U8Add) [.funApp (.ConstLit (.u8 255 .decimal))])
      (.ConstLit (.u8 1 .decimal)) =
      .ok (.Stuck (.prim .U8Add)
        [.funApp (.ConstLit (.u8 255 .decimal)), .funApp (.ConstLit (.u8 1 .decimal))])) :=
  ⟨(c3_checked_arithmetic 0 ⟨[], []⟩).1 255 1 .decimal .decimal (by omega),
   (c3_checked_arithmetic 0 ⟨[], []⟩).2.2.2.1 7 .decimal .decimal,
   (c3_checked_arithmetic 0 ⟨[], []⟩).2.2.2.2.1 1 8 .decimal .decimal (by omega),
   ((c3_checked_arithmetic 0 ⟨[], []⟩).2.2.2.2.2.2.2.2.2.2.2.2.2.2.2.2.2) .decimal .decimal⟩

/-- C4 counterexample: two array literals of different lengths whose
common prefix is equal compare as equal, refuting the claimed
same-length requirement. -/
theorem c4_array_length_counterexample :
    isEqual 5 ⟨[], []⟩ 0 (.ArrayLit [.Universe]) (.ArrayLit [.Universe, .Universe]) =
      .ok true ∧
    ([Value.Universe].length ≠ [Value.Universe, Value.Universe].length) :=
  ⟨rfl, by decide⟩

/-- C4 amended: conversion checking of two array literals ignores the
lengths; it zips the two element lists and returns true exactly when all
zipped pairs (the common prefix) are pointwise equal. -/
theorem c4_array_pointwise (n : Nat) (E : GEnv) (len : Nat) (xs ys : List Value) :
    isEqual (n + 2) E len (.ArrayLit xs) (.ArrayLit ys) =
      isEqualList (n + 1) E len (xs.zip ys) ∧
    (isEqual (n + 2) E len (.ArrayLit xs) (.ArrayLit ys) = .ok true ↔
      ∀ pr ∈ xs.zip ys, isEqual (n + 1) E len pr.1 pr.2 = .ok true) := by
  refine ⟨isEqualArrayArm n E len xs ys, ?_⟩
  rw [isEqualArrayArm]
  exact isEqualListOkTrue (n + 1) E len (xs.zip ys)

/-- C7: const_match on a constant-literal scrutinee evaluates the body of
the first branch whose pattern equals the scrutinee (first match of the
branch list), else evaluates the default with the scrutinee pushed as the
extra binding, else fails with MissingConstDefault; on a stuck scrutinee
the match is appended to the spine. -/
theorem c7_const_match (n : Nat) (E : GEnv) :
    (∀ c locals pats dflt, constMatch (n + 1) E (.ConstLit c) (.mk locals pats dflt) =
      (match pats.find? (fun pr => Const.ceq c pr.1) with
        | some pr => eval n E locals pr.2
        | none =>
          match dflt with
          | some d => eval n E (locals ++ [.ConstLit c]) d
          | none => .error (.err .MissingConstDefault))) ∧
    (∀ hd sp br, constMatch (n + 1) E (.Stuck hd sp) br =
      .ok (.Stuck hd (sp ++ [.constMatch br]))) := by
  constructor
  · intro c locals pats dflt
    rw [constMatchConstArm, findBranchEqFind]
    cases pats.find? (fun pr => Const.ceq c pr.1) <;> rfl
  · intro hd sp br
    rfl

end Fathom

namespace Fathom

/-- C6: whenever force returns a value, that value is not stuck on a
metavariable that has a solution in the meta table: force keeps applying
pending spines to solutions until the head is a non-metavariable or an
unsolved metavariable, so structural comparison after forcing never sees
a fully-resolved metavariable at the head. -/
theorem c6_force_no_solved_meta_head (fuel : Nat) (E : GEnv) (v w : Value)
    (h : force fuel E v = .ok w) :
    ∀ m sp sol, w = .Stuck (.metaVar m) sp → sliceGet E.metas m ≠ some (some sol) := by
  induction fuel generalizing v with
  | zero => simp [force] at h
  | succ n ih =>
    rw [force.eq_def] at h
    rcases v with ⟨hd, sp0⟩ | _ | _ | _ | _ | _ | _ | _ | _ | _ | _
    case Stuck =>
      rcases hd with p | l | m0
      · rcases h with ⟨rfl⟩
        intro m sp sol hw
        cases hw
      · rcases h with ⟨rfl⟩
        intro m sp sol hw
        cases hw
      · simp only at h
        cases hm : sliceGet E.metas m0 with
        | none => simp only [hm] at h; cases h
        | some o =>
          cases o with
          | none =>
            simp only [hm] at h
            rcases h with ⟨rfl⟩
            intro m sp sol hw hcontra
            obtain ⟨h1, h2⟩ := Value.Stuck.inj hw
            obtain rfl := Head.metaVar.inj h1
            rw [hm] at hcontra
            cases hcontra
          | some sol0 =>
            simp only [hm] at h
            cases ha : applySpine n E sol0 sp0 with
            | error e => rw [ha, bindErrEq] at h; cases h
            | ok v2 =>
              rw [ha, bindOkEq] at h
              exact ih v2 h
    all_goals
      rcases h with ⟨rfl⟩
      intro m sp sol hw
      cases hw

/-- C6 witness: forcing a value stuck on a solved metavariable resolves
it, and the result is not headed by a solved metavariable. -/
theorem c6_force_no_solved_meta_head_witness :
    (force 2 ⟨[], [some .Universe]⟩ (.Stuck (.metaVar 0) []) = .ok .Universe) ∧
    ∀ m sp sol, Value.Universe = Value.Stuck (.metaVar m) sp →
      sliceGet (GEnv.metas ⟨[], [some .Universe]⟩) m ≠ some (some sol) :=
  ⟨rfl, c6_force_no_solved_meta_head 2 ⟨[], [some .Universe]⟩ (.Stuck (.metaVar 0) [])
    .Universe rfl⟩

end Fathom

namespace Mini

/-- Environment lookup through get_local succeeds exactly on indices
below the environment length: the two checked subtractions of
local_to_global fail on anything else, and the in-range level is a valid
position. -/
theorem getLocalIsSome (env : List Value) (i : Nat) :
    (getLocal env i).isSome ↔ i < env.length := by
  unfold getLocal localToGlobal checkedSub getGlobal
  by_cases h1 : i ≤ env.length
  · by_cases h2 : 1 ≤ env.length - i
    · have hb : env.length - i - 1 < env.length := by omega
      simp [h1, h2, List.getElem?_eq_getElem hb]
      omega
    · simp [h1, h2]
      omega
  · simp [h1]
    omega

/-- C10: the minimal evaluator returns Err(MisboundLocal) on a variable
exactly when its de Bruijn index is not bound in the environment: the
Var case of eval is the option match on get_local, get_local is total
and succeeds exactly below the environment length, and the error is
produced exactly at and above the length. -/
theorem c10_misbound_local (n : Nat) (env : List Value) (i : Nat) :
    (eval (n + 1) env (.Var i) =
      (match getLocal env i with
        | some v => .ok v
        | none => .error (.ev .MisboundLocal))) ∧
    (eval (n + 1) env (.Var i) = .error (.ev .MisboundLocal) ↔ env.length ≤ i) ∧
    ((getLocal env i).isSome ↔ i < env.length) := by
  refine ⟨rfl, ?_, getLocalIsSome env i⟩
  have he : eval (n + 1) env (.Var i) =
      (match getLocal env i with
        | some v => .ok v
        | none => .error (.ev .MisboundLocal)) := rfl
  cases hg : getLocal env i with
  | some v =>
    have hi : i < env.length := by
      rw [← getLocalIsSome env i, hg]
      rfl
    rw [he, hg]
    constructor
    · intro h
      cases h
    · intro h
      omega
  | none =>
    have hi : ¬ i < env.length := by
      rw [← getLocalIsSome env i, hg]
      simp
    rw [he, hg]
    constructor
    · intro _
      omega
    · intro _
      rfl

end Mini

namespace Mini

theorem vstripListEqMap (l : List Value) : vstripList l = l.map vstrip := by
  induction l with
  | nil => rfl
  | cons hd tl ih => simp [vstripList, ih]

theorem vstripListLength (l : List Value) : (vstripList l).length = l.length := by
  simp [vstripListEqMap]

end Mini

namespace Mini

end Mini

namespace Mini

/-- C8 counterexample: checking the surface term Universe against a
function type reaches the synthesis fallback, the synthesised type
Universe is not convertible with the expected function type, and check
returns the diagnostic "error: type mismatch" together with no term at
all: the minimal core language has no ReportedError primitive, so
nothing is emitted at the failing site and elaboration of the enclosing
term is aborted. -/
theorem c8_no_reported_error_counterexample :
    check 3 ⟨[], [], []⟩ .Universe (.FunType 0 .Universe (.mk [] .Universe)) =
      .ok (⟨[], [], ["error: type mismatch"]⟩, none) := rfl

/-- C8 amended: whenever a surface term falls through to the synthesis
fallback of check (it is not a let, and not a function introduction
against a function type), synthesis yields a term and type, and the
synthesised type is not convertible with the expected type, then check
pushes the diagnostic "error: type mismatch" and returns None: no core
term is produced at the failing site. -/
theorem c8_type_mismatch_reports (n : Nat) (ctx : Ctx) (t : STerm) (expected : Value)
    (ctx2 : Ctx) (tm : Term) (ty : Value)
    (hLet : t.isLet = false)
    (hEta : t.isFunIntro = false ∨ expected.isFunType = false)
    (hSynth : synth n ctx t = .ok (ctx2, some (tm, ty)))
    (hEq : ctxIsEqual n ctx2 ty expected = .ok (some false)) :
    check (n + 1) ctx t expected =
      .ok ({ctx2 with messages := ctx2.messages ++ ["error: type mismatch"]}, none) := by
  have hrep : ({ctx2 with messages := ctx2.messages ++ ["error: type mismatch"]} : Ctx) =
      ctx2.report "error: type mismatch" := rfl
  rw [hrep]
  cases t with
  | Let nm dt de be => simp [STerm.isLet] at hLet
  | FunIntro nm oe =>
    cases hEta with
    | inl h => simp [STerm.isFunIntro] at h
    | inr h =>
      cases expected with
      | FunType nm1 it ot => simp [Value.isFunType] at h
      | Stuck g sp =>
        rw [check, hSynth, Fathom.bindOkEq]
        simp only []
        rw [hEq, Fathom.bindOkEq]
        all_goals (intros; simp_all)
      | Universe =>
        rw [check, hSynth, Fathom.bindOkEq]
        simp only []
        rw [hEq, Fathom.bindOkEq]
        all_goals (intros; simp_all)
      | FunIntro nm1 oe1 =>
        rw [check, hSynth, Fathom.bindOkEq]
        simp only []
        rw [hEq, Fathom.bindOkEq]
        all_goals (intros; simp_all)
  | Var x =>
    rw [check, hSynth, Fathom.bindOkEq]
    simp only []
    rw [hEq, Fathom.bindOkEq]
    all_goals (intros; simp_all)
  | Universe =>
    rw [check, hSynth, Fathom.bindOkEq]
    simp only []
    rw [hEq, Fathom.bindOkEq]
    all_goals (intros; simp_all)
  | FunType nm it ot =>
    rw [check, hSynth, Fathom.bindOkEq]
    simp only []
    rw [hEq, Fathom.bindOkEq]
    all_goals (intros; simp_all)
  | FunElim h i =>
    rw [check, hSynth, Fathom.bindOkEq]
    simp only []
    rw [hEq, Fathom.bindOkEq]
    all_goals (intros; simp_all)

/-- C8 witness: the amended behaviour at the concrete counterexample
input. -/
theorem c8_type_mismatch_reports_witness :
    check 3 ⟨[], [], []⟩ .Universe (.FunType 0 .Universe (.mk [] .Universe)) =
      .ok ({ types := [], env := [],
             messages := [] ++ ["error: type mismatch"] : Ctx}, none) :=
  c8_type_mismatch_reports 2 ⟨[], [], []⟩ .Universe (.FunType 0 .Universe (.mk [] .Universe))
    ⟨[], [], []⟩ .Universe .Universe rfl (Or.inl rfl) rfl rfl

end Mini
